import Mathlib

/-!
Relay attenuator daemon (r_attenu): volume / mute state machine, command,
button and infrared handlers, client table.

Shallow embedding of the VolumeState operations, the relay write sequence, the
volume persistence, `process_hw_input`, `process_button_event`,
`process_IR_input` and the client table of `process_input`, from
`src/source/r_attenu.c` and `src/package-sources/r_attenu.c`.

Conventions of the embedding
* The C globals `vol` (unsigned int, 32 bit) and `mute` (unsigned char) are
  natural numbers; every store reduces modulo 2^32 resp. 2^8, and `~x` on a
  32 bit operand is `4294967295 - x`.
* Calls into the outside world are recorded, in program order, in a trace.
* The outcome of `lgI2cWriteByte` and of `fopen(IRCTL_FILE, "w")` is not
  decided by the program; it is read from two oracles carried by the state and
  indexed by the number of calls made so far.
* Messages printed on stderr are not part of the model. The
  `pthread_mutex_lock/unlock` calls are left out of the definitions of the
  operations and handlers and are recorded by a second set of definitions
  (`call_locked`, `gpio_alert_callback`, `process_hw_input_locked`,
  `process_IR_input_locked`) that run the same code.
* C strings are lists of characters; `strtok`, `atoi`, `strstr`, `sprintf` and
  `fscanf` are modelled after the C library.
-/

namespace RAttenu

/-- The two daemon variants of the repository: `source` is
`src/source/r_attenu.c`, `package` is `src/package-sources/r_attenu.c`. -/
inductive Variant
  | source
  | package
  deriving DecidableEq, Repr

/-- Observable actions, in program order.
* `relay d`   : `ra_write` was entered with the unsigned short argument `d`
* `bus b r`   : `lgI2cWriteByte(relay handle, b)` was called and returned `r`
* `delay us`  : `usleep(us)`
* `save d`    : `saveVol` / `save_vol` was entered with the int argument `d` -/
inductive Event
  | relay (data : Nat)
  | bus (byteVal : Nat) (ret : Int)
  | delay (us : Nat)
  | save (data : Int)
  deriving DecidableEq, Repr

/-- Program state together with the part of the environment the daemon talks to. -/
structure World where
  /-- static unsigned int vol -/
  vol : Nat
  /-- static unsigned char mute -/
  mute : Nat
  /-- contents of IRCTL_FILE; `none` when it cannot be opened for reading -/
  file : Option (List Char)
  /-- return code of the n-th call of lgI2cWriteByte -/
  i2cRet : Nat → Int
  /-- number of lgI2cWriteByte calls made so far -/
  i2cCalls : Nat
  /-- whether the n-th `fopen(IRCTL_FILE, "w")` succeeds -/
  fopenW : Nat → Bool
  /-- number of `fopen(IRCTL_FILE, "w")` calls made so far -/
  fopenCalls : Nat
  /-- everything done so far, oldest first -/
  trace : List Event

/-- The macro DEFAULT_VOL of both variants. -/
def DEFAULT_VOL : Int := 0x1f

/-- Conversion of a 32 bit unsigned value to C `int` (two's complement). -/
def toInt32 (n : Nat) : Int :=
  if n % 4294967296 < 2147483648 then ((n % 4294967296 : Nat) : Int)
  else ((n % 4294967296 : Nat) : Int) - 4294967296

/-- Conversion of a C `int` to `unsigned int`. -/
def toUInt32 (i : Int) : Nat := (i % 4294967296).toNat

/-! ## Persistence: `retriveVol` / `saveVol` -/

/-- Text produced by `fprintf(fp, "%x", data)` for an `int` argument: the
argument reinterpreted as unsigned int, in lowercase hexadecimal. -/
def fprintf_x (data : Int) : List Char := Nat.toDigits 16 (toUInt32 data)

/-- The C `isspace` in the "C" locale: space, \t, \n, \v, \f, \r. -/
def isspace (c : Char) : Bool :=
  c.toNat = 32 || (9 ≤ c.toNat && c.toNat ≤ 13)

/-- Value of a hexadecimal digit, `none` for any other character. -/
def hexval (c : Char) : Option Nat :=
  if 48 ≤ c.toNat ∧ c.toNat ≤ 57 then some (c.toNat - 48)
  else if 97 ≤ c.toNat ∧ c.toNat ≤ 102 then some (c.toNat - 87)
  else if 65 ≤ c.toNat ∧ c.toNat ≤ 70 then some (c.toNat - 55)
  else none

/-- Longest run of hexadecimal digits at the head of the text, accumulated
onto `acc`; `none` as long as no digit was seen. -/
def hexrun : List Char → Option Nat → Option Nat
  | [], acc => acc
  | c :: cs, acc =>
    match hexval c with
    | some d => hexrun cs (some (acc.getD 0 * 16 + d))
    | none => acc

/-- The conversion `fscanf(fp, "%x", &data)` on a stream holding `text`, as
the C library the daemon is linked with (glibc, 64 bit `long`) performs it.
Leading white space is skipped, then an optional sign and an optional `0x` /
`0X` are read, then the hexadecimal digits that follow. A `0x` with no digit
after it is read as the number 0. `none` is a matching or input failure (fscanf
does not return 1). Otherwise the digits are converted as by `strtoul`: a number
of 2^64 or more gives 2^64 - 1, a smaller one is negated modulo 2^64 after a
`-`; `some d` is the `int` then left in `data`, the low 32 bits of that value. -/
def fscanf_x (text : List Char) : Option Int :=
  let t := text.dropWhile isspace
  let signed : Bool × List Char :=
    match t with
    | c :: r => if c.toNat = 45 then (true, r) else if c.toNat = 43 then (false, r) else (false, t)
    | [] => (false, t)
  let digits : Option Nat :=
    match signed.2 with
    | z :: x :: r =>
      if z.toNat = 48 ∧ (x.toNat = 120 ∨ x.toNat = 88) then hexrun r (some 0)
      else hexrun signed.2 none
    | _ => hexrun signed.2 none
  match digits with
  | none => none
  | some n =>
    let ul : Nat :=
      if 18446744073709551616 ≤ n then 18446744073709551615
      else if signed.1 then (18446744073709551616 - n) % 18446744073709551616
      else n
    some (toInt32 ul)

/-- Embedding of `retriveVol` (source) / `retrieve_vol` (package): the saved
volume, or DEFAULT_VOL when the file cannot be opened, nothing can be
converted, or the value is outside 0..0x3f. -/
def retriveVol (s : World) : Int :=
  match s.file with
  | none => DEFAULT_VOL
  | some text =>
    match fscanf_x text with
    | none => DEFAULT_VOL
    | some data => if data < 0 ∨ data > 0x3f then DEFAULT_VOL else data

/-- Embedding of `saveVol` (source) / `save_vol` (package): when the file can be
opened for writing it is replaced by the `%x` text of `data`; otherwise it is
left alone. -/
def saveVol (data : Int) (s : World) : World :=
  let s := { s with trace := s.trace ++ [Event.save data] }
  let ok := s.fopenW s.fopenCalls
  let s := { s with fopenCalls := s.fopenCalls + 1 }
  if ok then { s with file := some (fprintf_x data) } else s

/-! ## Bus access -/

/-- The library call `lgI2cWriteByte(relay handle, byteVal)`: its return code
comes from the oracle, the call is appended to the trace. -/
def lgI2cWriteByte (byteVal : Nat) (s : World) : Int × World :=
  let ret := s.i2cRet s.i2cCalls
  (ret, { s with i2cCalls := s.i2cCalls + 1, trace := s.trace ++ [Event.bus byteVal ret] })

/-- The library call `usleep(us)`. -/
def usleep (us : Nat) (s : World) : World :=
  { s with trace := s.trace ++ [Event.delay us] }

/-- Embedding of `ra_write(unsigned short data)`. The argument expression is
converted to unsigned short on entry. The source variant returns right after a
failed priming write; the package variant ignores the result of the priming
write. -/
def ra_write (var : Variant) (data : Nat) (s : World) : World :=
  let data := data % 65536
  let s := { s with trace := s.trace ++ [Event.relay data] }
  let r := lgI2cWriteByte 0x3f s
  match var with
  | Variant.source =>
    if r.1 < 0 then r.2
    else (lgI2cWriteByte data (usleep 600 r.2)).2
  | Variant.package => (lgI2cWriteByte data (usleep 600 r.2)).2

/-! ## Mute control -/

/-- Embedding of `ra_set_mute(int data)`. -/
def ra_set_mute (var : Variant) (data : Int) (s : World) : Int × World :=
  if data = 0 ∨ data = 1 then
    let s := { s with mute := (data % 256).toNat }
    (0, ra_write var (if s.mute ≠ 0 then 0 else (4294967295 - s.vol) ||| 0x40) s)
  else (1, s)

/-- Embedding of `ra_get_mute`. -/
def ra_get_mute (s : World) : Int := (s.mute : Int)

/-- Embedding of `ra_mute` (source) / `ra_mute_toggle` (package). `mute` is
promoted to int before `~`. -/
def ra_mute (var : Variant) (s : World) : World :=
  let s := { s with mute := ((4294967295 - s.mute) &&& 0x1) % 256 }
  ra_write var
    (if s.mute ≠ 0 then (4294967295 - s.vol) &&& 0xbf else (4294967295 - s.vol) ||| 0x40) s

/-! ## Volume control -/

/-- Embedding of `ra_vol_inc`. -/
def ra_vol_inc (var : Variant) (s : World) : Int × World :=
  if s.vol ≥ 0x3f then (1, s)
  else
    let s := { s with vol := (s.vol + 1) % 4294967296 }
    let s := ra_write var ((4294967295 - s.vol) ||| 0x40) s
    let s := saveVol (toInt32 s.vol) s
    (0, { s with mute := 0 })

/-- Embedding of `ra_vol_dec`. -/
def ra_vol_dec (var : Variant) (s : World) : Int × World :=
  if s.vol ≤ 0 then (1, s)
  else
    let s := { s with vol := (s.vol + 4294967295) % 4294967296 }
    let s := ra_write var ((4294967295 - s.vol) ||| 0x40) s
    let s := saveVol (toInt32 s.vol) s
    (0, { s with mute := 0 })

/-- Embedding of `ra_vol_set(int data)`. -/
def ra_vol_set (var : Variant) (data : Int) (s : World) : Int × World :=
  if data ≥ 0 ∧ data ≤ 0x3f then
    let s := { s with vol := toUInt32 data }
    let s := ra_write var ((4294967295 - s.vol) ||| 0x40) s
    let s := saveVol (toInt32 s.vol) s
    (0, { s with mute := 0 })
  else (1, s)

/-- Embedding of `ra_vol_get`. -/
def ra_vol_get (s : World) : Int := toInt32 s.vol

/-! ## Start-up and sequences of operations -/

/-- The volume restore at the end of `init_hardware`, the device handles having
been opened: the source variant stores the loaded volume and writes its word,
the package variant stores it and calls `ra_vol_set` on it. -/
def init_hardware (var : Variant) (s : World) : World :=
  let s := { s with vol := toUInt32 (retriveVol s) }
  match var with
  | Variant.source => ra_write var ((4294967295 - s.vol) ||| 0x40) s
  | Variant.package => (ra_vol_set var (toInt32 s.vol) s).2

/-- State of a freshly started process (the static initialisers of the
globals), for a given persistence file and given oracles. -/
def boot (file : Option (List Char)) (i2cRet : Nat → Int) (fopenW : Nat → Bool) : World :=
  { vol := toUInt32 DEFAULT_VOL, mute := 0x00, file := file,
    i2cRet := i2cRet, i2cCalls := 0, fopenW := fopenW, fopenCalls := 0, trace := [] }

/-- The mutating VolumeState operations with their arguments. -/
inductive Op
  | vol_set (data : Int)
  | vol_inc
  | vol_dec
  | set_mute (data : Int)
  | mute
  deriving DecidableEq, Repr

/-- One call of a mutating operation; the return code is dropped. -/
def step (var : Variant) (op : Op) (s : World) : World :=
  match op with
  | Op.vol_set data => (ra_vol_set var data s).2
  | Op.vol_inc => (ra_vol_inc var s).2
  | Op.vol_dec => (ra_vol_dec var s).2
  | Op.set_mute data => (ra_set_mute var data s).2
  | Op.mute => ra_mute var s

/-- A finite sequence of calls, first element first. -/
def run (var : Variant) (ops : List Op) (s : World) : World :=
  ops.foldl (fun w op => step var op w) s

/-- What a call appended to the trace. -/
def emitted (before after : World) : List Event :=
  after.trace.drop before.trace.length

/-- A sample state: volume 31, muted, file holding "1f", every bus write and
every fopen succeeding, nothing done yet. -/
def sampleOk : World :=
  { vol := 31, mute := 1, file := some [Char.ofNat 49, Char.ofNat 102],
    i2cRet := fun _ => 0, i2cCalls := 0, fopenW := fun _ => true, fopenCalls := 0, trace := [] }

/-- The sample state with every bus write failing (LG error code -82). -/
def sampleBusDown : World :=
  { sampleOk with i2cRet := fun _ => -82 }

/-- Words handed to `ra_write`, in order. -/
def relayWords (evs : List Event) : List Nat :=
  evs.filterMap (fun e => match e with | Event.relay d => some d | _ => none)

/-- Values handed to `lgI2cWriteByte`, in order. -/
def busValues (evs : List Event) : List Nat :=
  evs.filterMap (fun e => match e with | Event.bus b _ => some b | _ => none)

/-- Values handed to `saveVol`, in order. -/
def savedValues (evs : List Event) : List Int :=
  evs.filterMap (fun e => match e with | Event.save d => some d | _ => none)

/-- The expression `(~vol) | 0x40` as received by `ra_write`, that is after
conversion to unsigned short: the word of an unmuted volume. -/
def unmutedWord (v : Nat) : Nat := ((4294967295 - v) ||| 0x40) % 65536

/-- What one call of `ra_write` with word `w` appends to the trace in state `s`. -/
def relaySeq (var : Variant) (s : World) (w : Nat) : List Event :=
  [Event.relay w, Event.bus 0x3f (s.i2cRet s.i2cCalls)] ++
    (if var = Variant.source ∧ s.i2cRet s.i2cCalls < 0 then []
     else [Event.delay 600, Event.bus w (s.i2cRet (s.i2cCalls + 1))])

/-- The range invariant of VolumeState. -/
def Inv (s : World) : Prop := s.vol ≤ 63 ∧ (s.mute = 0 ∨ s.mute = 1)

/-! ## C strings and the C library calls of the command and IR handlers -/

/-- A byte buffer read as a C string: the characters before the first NUL. -/
def cstr (buf : List Char) : List Char := buf.takeWhile (fun c => c.toNat ≠ 0)

/-- The C library call `strtok` as a function of the text still to be scanned:
leading delimiters are skipped; if nothing is left the result is NULL (`none`)
and the scan position is the end of the text; otherwise the token runs up to
the next delimiter, and the scan position is just after that delimiter (or at
the end of the text). The second component is the text a following
`strtok(NULL, ..)` scans. -/
def strtok (delim : List Char) (s : List Char) : Option (List Char) × List Char :=
  match s.dropWhile (fun c => delim.contains c) with
  | [] => (none, [])
  | c :: t =>
    (some ((c :: t).takeWhile (fun x => !delim.contains x)),
     ((c :: t).dropWhile (fun x => !delim.contains x)).drop 1)

/-- Decimal digits at the head of the text, accumulated onto `acc`. -/
def decrun : List Char → Nat → Nat
  | [], acc => acc
  | c :: cs, acc =>
    if 48 ≤ c.toNat ∧ c.toNat ≤ 57 then decrun cs (acc * 10 + (c.toNat - 48)) else acc

/-- The C library call `atoi`: white space is skipped, an optional sign and the
decimal digits that follow are converted; 0 when there is no digit. A number
that does not fit `int` (undefined in C) is reduced modulo 2^32. -/
def atoi (s : List Char) : Int :=
  let t := s.dropWhile isspace
  let signed : Bool × List Char :=
    match t with
    | c :: r => if c.toNat = 45 then (true, r) else if c.toNat = 43 then (false, r) else (false, t)
    | [] => (false, t)
  let n : Int := (decrun signed.2 0 : Nat)
  toInt32 (toUInt32 (if signed.1 then -n else n))

/-- Text produced by `sprintf(data, "%d", i)`. -/
def sprintf_d (i : Int) : List Char :=
  if i < 0 then Char.ofNat 45 :: Nat.toDigits 10 (-i).toNat else Nat.toDigits 10 i.toNat

/-- Whether `needle` is found at the very start of `hay`. -/
def startsWith : List Char → List Char → Bool
  | _, [] => true
  | [], _ :: _ => false
  | h :: hs, n :: ns => h == n && startsWith hs ns

/-- The C library call `strstr(hay, needle) != NULL`. -/
def strstr : List Char → List Char → Bool
  | [], needle => startsWith [] needle
  | h :: hs, needle => startsWith (h :: hs) needle || strstr hs needle

/-! ## Client commands: `process_hw_input` -/

/-- Embedding of `process_hw_input`. `string` is the buffer filled by `read`
and NUL terminated by the caller. The value used when there is no second token
is 0 in the source variant and 70 in the package variant. `none` stands for the
call `strcmp(action, ..)` on a NULL `action`; otherwise the reply text and the
new state are returned. `strdup` (source variant) is taken to succeed. -/
def process_hw_input (var : Variant) (string : List Char) (s : World) :
    Option (List Char × World) :=
  let first := strtok "=".toList (cstr string)
  let second := strtok " ".toList first.2
  let value : Int :=
    match second.1 with
    | some val => atoi val
    | none =>
      match var with
      | Variant.source => 0
      | Variant.package => 70
  match first.1 with
  | none => none
  | some action =>
    if action = "SET_VOLUME".toList then
      some (if (ra_vol_set var value s).1 = 1 then "FAILURE".toList else "SUCCESS".toList,
            (ra_vol_set var value s).2)
    else if action = "GET_VOLUME".toList then
      some (sprintf_d (ra_vol_get s), s)
    else if action = "SET_MUTE".toList then
      some (if (ra_set_mute var value s).1 = 1 then "FAILURE".toList else "SUCCESS".toList,
            (ra_set_mute var value s).2)
    else if action = "GET_MUTE".toList then
      some (sprintf_d (ra_get_mute s), s)
    else some ("FAILURE".toList, s)

/-- The `action` of `process_hw_input`: the first token of the command
delimited by `=`, `none` when `strtok` returns NULL. -/
def actionOf (string : List Char) : Option (List Char) :=
  (strtok "=".toList (cstr string)).1

/-- The `val` of `process_hw_input`: the blank delimited token that follows the
action, `none` when `strtok` returns NULL. -/
def valOf (string : List Char) : Option (List Char) :=
  (strtok " ".toList (strtok "=".toList (cstr string)).2).1

/-- The `value` of `process_hw_input` at the point where the action is compared. -/
def valueOf (var : Variant) (string : List Char) : Int :=
  match valOf string with
  | some val => atoi val
  | none =>
    match var with
    | Variant.source => 0
    | Variant.package => 70

/-! ## Buttons: `ra_read`, `process_button_event` -/

/-- Embedding of `ra_read`, `rd` being what `lgI2cReadByte` returned: the
source variant turns every error code into -1, the package variant passes it
on. -/
def ra_read (var : Variant) (rd : Int) : Int :=
  match var with
  | Variant.source => if rd < 0 then -1 else rd
  | Variant.package => rd

/-- The `switch` of `process_button_event`. -/
def button_switch (var : Variant) (swStatus : Int) (s : World) : World :=
  if swStatus = 0xf7 then ra_mute var s
  else if swStatus = 0xfd then (ra_vol_dec var s).2
  else if swStatus = 0xfe then (ra_vol_inc var s).2
  else s

/-- Embedding of `process_button_event`, `rd` being what `lgI2cReadByte`
returned for the switch device. The source variant returns before the `switch`
on a negative status. -/
def process_button_event (var : Variant) (rd : Int) (s : World) : World :=
  match var with
  | Variant.source =>
    if ra_read var rd < 0 then s else button_switch var (ra_read var rd) s
  | Variant.package => button_switch var (ra_read var rd) s

/-! ## Infrared: `process_IR_input` -/

/-- Embedding of `process_IR_input` (source) / `process_ir_input` (package) on
one decoded line. The source variant compares the third blank separated token
with the three key names; the package variant searches the whole line for
them. -/
def process_IR_input (var : Variant) (code : List Char) (s : World) : World :=
  match var with
  | Variant.source =>
    let t1 := strtok " ".toList code
    let t2 := strtok " ".toList t1.2
    let t3 := strtok " ".toList t2.2
    match t3.1 with
    | none => s
    | some button =>
      if button = "KEY_VOLUMEUP".toList then (ra_vol_inc var s).2
      else if button = "KEY_VOLUMEDOWN".toList then (ra_vol_dec var s).2
      else if button = "KEY_MUTE".toList then ra_mute var s
      else s
  | Variant.package =>
    if strstr code "KEY_VOLUMEUP".toList then (ra_vol_inc var s).2
    else if strstr code "KEY_VOLUMEDOWN".toList then (ra_vol_dec var s).2
    else if strstr code "KEY_MUTE".toList then ra_mute var s
    else s

/-! ## The client table of `process_input` -/

/-- Number of entries of `client_socket`. -/
def max_clients : Nat := 30

/-- The loop `for (i = 0; i < max_clients; i++) if (client_socket[i] == 0)
{ client_socket[i] = new_socket; break; }`. -/
def store_client (new_socket : Int) : List Int → List Int
  | [] => []
  | sd :: rest => if sd = 0 then new_socket :: rest else sd :: store_client new_socket rest

/-- The accept branch of `process_input`, `new_socket` being what `accept`
returned. -/
def accept_client (new_socket : Int) (client_socket : List Int) : List Int :=
  if new_socket ≥ 0 then store_client new_socket client_socket else client_socket

/-- The client descriptors put into `readfds` before `select`. -/
def fd_set_clients (client_socket : List Int) : List Int :=
  client_socket.filter (fun sd => sd > 0)

/-- One pass of the client data loop of `process_input`. `readfds` lists the
descriptors left set by `select`; `input sd` is what `read(sd, ..)` delivers:
`none` for a result <= 0, otherwise the bytes read. The result is the new
table, the replies written (descriptor and text, in order) and the new state;
`none` when `process_hw_input` does not return. The source variant tests
`sd > 0` before `FD_ISSET`. -/
def serve_clients (var : Variant) (readfds : List Int) (input : Int → Option (List Char)) :
    List Int → World → Option (List Int × List (Int × List Char) × World)
  | [], s => some ([], [], s)
  | sd :: rest, s =>
    if (var = Variant.package ∨ sd > 0) ∧ sd ∈ readfds then
      match input sd with
      | none =>
        match serve_clients var readfds input rest s with
        | none => none
        | some r => some (0 :: r.1, r.2.1, r.2.2)
      | some buffer =>
        match process_hw_input var buffer s with
        | none => none
        | some reply =>
          match serve_clients var readfds input rest reply.2 with
          | none => none
          | some r => some (sd :: r.1, (sd, reply.1) :: r.2.1, r.2.2)
    else
      match serve_clients var readfds input rest s with
      | none => none
      | some r => some (sd :: r.1, r.2.1, r.2.2)

/-! ## Comparing two results of one command -/

/-- What is compared of two results of a command run from state `s`: the
reply, the volume, the mute flag, the words handed to `ra_write` and the values
handed to `saveVol`. -/
def sameOutcome (s : World) (a b : List Char × World) : Prop :=
  a.1 = b.1 ∧ a.2.vol = b.2.vol ∧ a.2.mute = b.2.mute ∧
  relayWords (emitted s a.2) = relayWords (emitted s b.2) ∧
  savedValues (emitted s a.2) = savedValues (emitted s b.2)

/-! ## Mutual exclusion: the mutex calls around the operations

The definitions above leave the `pthread_mutex_lock` / `pthread_mutex_unlock`
calls out. The definitions below run the same code and record, next to the
state, where those calls sit with respect to the bodies of the mutating
operations. -/

/-- The mutexes of the daemon: `button_mutex` (source variant) and `vol_mutex`
(package variant). -/
inductive Mutex
  | button_mutex
  | vol_mutex
  deriving DecidableEq, Repr

/-- What a thread does with respect to locking, in program order. `lock m` and
`unlock m` are `pthread_mutex_lock(&m)` and `pthread_mutex_unlock(&m)`;
`body op evs` is the body of the mutating operation `op`, run from its first
statement to its return, `evs` being what it appended to the trace. -/
inductive LockEvent
  | lock (m : Mutex)
  | unlock (m : Mutex)
  | body (op : Op) (evs : List Event)
  deriving DecidableEq, Repr

/-- Return code and new state of a mutating operation; `ra_mute` returns
nothing, its code is taken as 0. -/
def call (var : Variant) (op : Op) (s : World) : Int × World :=
  match op with
  | Op.vol_set data => ra_vol_set var data s
  | Op.vol_inc => ra_vol_inc var s
  | Op.vol_dec => ra_vol_dec var s
  | Op.set_mute data => ra_set_mute var data s
  | Op.mute => (0, ra_mute var s)

/-- A mutating operation together with its mutex calls. Each of the five
operations of the package variant locks `vol_mutex` at entry and unlocks it
before every return; the operations of the source variant make no mutex call. -/
def call_locked (var : Variant) (op : Op) (st : World × List LockEvent) :
    Int × (World × List LockEvent) :=
  match var with
  | Variant.package =>
    ((call var op st.1).1,
     ((call var op st.1).2,
      st.2 ++ [LockEvent.lock Mutex.vol_mutex,
               LockEvent.body op (emitted st.1 (call var op st.1).2),
               LockEvent.unlock Mutex.vol_mutex]))
  | Variant.source =>
    ((call var op st.1).1,
     ((call var op st.1).2, st.2 ++ [LockEvent.body op (emitted st.1 (call var op st.1).2)]))

/-- The `switch` of `process_button_event`, with the mutex calls of the
operations it calls. -/
def button_switch_locked (var : Variant) (swStatus : Int) (st : World × List LockEvent) :
    World × List LockEvent :=
  if swStatus = 0xf7 then (call_locked var Op.mute st).2
  else if swStatus = 0xfd then (call_locked var Op.vol_dec st).2
  else if swStatus = 0xfe then (call_locked var Op.vol_inc st).2
  else st

/-- Embedding of `process_button_event` with the mutex calls of the operations
it calls. -/
def process_button_event_locked (var : Variant) (rd : Int) (st : World × List LockEvent) :
    World × List LockEvent :=
  match var with
  | Variant.source =>
    if ra_read var rd < 0 then st else button_switch_locked var (ra_read var rd) st
  | Variant.package => button_switch_locked var (ra_read var rd) st

/-- One entry of the `alerts` array handed to `gpio_alert_callback`, with what
the switch read returns if it is made for this entry. -/
structure Alert where
  /-- report.gpio -/
  gpio : Int
  /-- report.level -/
  level : Int
  /-- result of lgI2cReadByte on the switch device -/
  rd : Int

/-- The macro INT_GPIO of both variants. -/
def INT_GPIO : Int := 5

/-- Embedding of `gpio_alert_callback`, the entry point of the interrupt
thread. The source variant handles the entries of line INT_GPIO with level 0
and wraps `process_button_event` in `button_mutex`; the package variant handles
every entry with level 0 and makes no mutex call of its own. -/
def gpio_alert_callback (var : Variant) :
    List Alert → World × List LockEvent → World × List LockEvent
  | [], st => st
  | a :: rest, st =>
    match var with
    | Variant.source =>
      if a.gpio = INT_GPIO ∧ a.level = 0 then
        gpio_alert_callback var rest
          ((process_button_event_locked var a.rd
              (st.1, st.2 ++ [LockEvent.lock Mutex.button_mutex])).1,
           (process_button_event_locked var a.rd
              (st.1, st.2 ++ [LockEvent.lock Mutex.button_mutex])).2
             ++ [LockEvent.unlock Mutex.button_mutex])
      else gpio_alert_callback var rest st
    | Variant.package =>
      if a.level = 0 then gpio_alert_callback var rest (process_button_event_locked var a.rd st)
      else gpio_alert_callback var rest st

/-- Embedding of `process_hw_input`, an entry point of the reactor thread, with
the mutex calls of the operations it calls; neither variant makes a mutex call
in `process_hw_input` itself, `ra_vol_get` or `ra_get_mute`. -/
def process_hw_input_locked (var : Variant) (string : List Char)
    (st : World × List LockEvent) : Option (List Char × (World × List LockEvent)) :=
  match actionOf string with
  | none => none
  | some action =>
    if action = "SET_VOLUME".toList then
      some (if (call_locked var (Op.vol_set (valueOf var string)) st).1 = 1
              then "FAILURE".toList else "SUCCESS".toList,
            (call_locked var (Op.vol_set (valueOf var string)) st).2)
    else if action = "GET_VOLUME".toList then some (sprintf_d (ra_vol_get st.1), st)
    else if action = "SET_MUTE".toList then
      some (if (call_locked var (Op.set_mute (valueOf var string)) st).1 = 1
              then "FAILURE".toList else "SUCCESS".toList,
            (call_locked var (Op.set_mute (valueOf var string)) st).2)
    else if action = "GET_MUTE".toList then some (sprintf_d (ra_get_mute st.1), st)
    else some ("FAILURE".toList, st)

/-- Embedding of `process_IR_input` (source) / `process_ir_input` (package), an
entry point of the reactor thread, with the mutex calls of the operations it
calls. -/
def process_IR_input_locked (var : Variant) (code : List Char)
    (st : World × List LockEvent) : World × List LockEvent :=
  match var with
  | Variant.source =>
    match (strtok " ".toList (strtok " ".toList (strtok " ".toList code).2).2).1 with
    | none => st
    | some button =>
      if button = "KEY_VOLUMEUP".toList then (call_locked var Op.vol_inc st).2
      else if button = "KEY_VOLUMEDOWN".toList then (call_locked var Op.vol_dec st).2
      else if button = "KEY_MUTE".toList then (call_locked var Op.mute st).2
      else st
  | Variant.package =>
    if strstr code "KEY_VOLUMEUP".toList then (call_locked var Op.vol_inc st).2
    else if strstr code "KEY_VOLUMEDOWN".toList then (call_locked var Op.vol_dec st).2
    else if strstr code "KEY_MUTE".toList then (call_locked var Op.mute st).2
    else st

/-- Whether mutex `m` is held after the lock events, `held` telling whether it
was held before them. -/
def heldAfter (m : Mutex) : List LockEvent → Bool → Bool
  | [], held => held
  | LockEvent.lock x :: rest, held => heldAfter m rest (held || decide (x = m))
  | LockEvent.unlock x :: rest, held => heldAfter m rest (held && !decide (x = m))
  | LockEvent.body _ _ :: rest, held => heldAfter m rest held

/-- Whether every operation body among the lock events runs while mutex `m` is
held, `held` telling whether it was held before them. -/
def guardedBy (m : Mutex) : List LockEvent → Bool → Bool
  | [], _ => true
  | LockEvent.lock x :: rest, held => guardedBy m rest (held || decide (x = m))
  | LockEvent.unlock x :: rest, held => guardedBy m rest (held && !decide (x = m))
  | LockEvent.body _ _ :: rest, held => held && guardedBy m rest held

/-- From a start with `m` not held: every operation body among the lock
events runs while `m` is held, and `held` tells whether `m` is held at the end. -/
def Guarded (m : Mutex) (lt : List LockEvent) (held : Bool) : Prop :=
  guardedBy m lt false = true ∧ heldAfter m lt false = held

/-! ## Basic facts about the helpers -/

theorem toInt32_small (n : Nat) (h : n < 2147483648) : toInt32 n = (n : Int) := by
  unfold toInt32
  have h1 : n % 4294967296 = n := Nat.mod_eq_of_lt (by omega)
  rw [h1, if_pos h]

theorem toUInt32_small (v : Int) (h0 : 0 ≤ v) (h1 : v < 4294967296) :
    toUInt32 v = v.toNat := by
  unfold toUInt32
  rw [Int.emod_eq_of_lt h0 h1]

theorem toUInt32_natCast (n : Nat) (h : n < 4294967296) : toUInt32 (n : Int) = n := by
  rw [toUInt32_small _ (by omega) (by omega)]
  simp

theorem unmutedWord_le63 (v : Nat) (h : v ≤ 63) : unmutedWord v = 65535 - v := by
  unfold unmutedWord
  interval_cases v <;> rfl

theorem mutedToggleWord_le63 (v : Nat) (h : v ≤ 63) :
    ((4294967295 - v) &&& 0xbf) % 65536 = 191 - v := by
  interval_cases v <;> rfl

theorem emitted_append (s t : World) (evs : List Event) (h : t.trace = s.trace ++ evs) :
    emitted s t = evs := by
  unfold emitted
  rw [h]
  exact List.drop_left s.trace evs

/-! ### `ra_write` touches the trace and the bus call counter only -/

theorem ra_write_trace (var : Variant) (d : Nat) (s : World) :
    (ra_write var d s).trace = s.trace ++ relaySeq var s (d % 65536) := by
  cases var
  · by_cases h : s.i2cRet s.i2cCalls < 0
    · simp [ra_write, lgI2cWriteByte, usleep, relaySeq, h]
    · simp [ra_write, lgI2cWriteByte, usleep, relaySeq, h]
  · simp [ra_write, lgI2cWriteByte, usleep, relaySeq]

@[simp] theorem ra_write_vol (var : Variant) (d : Nat) (s : World) :
    (ra_write var d s).vol = s.vol := by
  cases var
  · by_cases h : s.i2cRet s.i2cCalls < 0 <;> simp [ra_write, lgI2cWriteByte, usleep, h]
  · simp [ra_write, lgI2cWriteByte, usleep]

@[simp] theorem ra_write_mute (var : Variant) (d : Nat) (s : World) :
    (ra_write var d s).mute = s.mute := by
  cases var
  · by_cases h : s.i2cRet s.i2cCalls < 0 <;> simp [ra_write, lgI2cWriteByte, usleep, h]
  · simp [ra_write, lgI2cWriteByte, usleep]

@[simp] theorem ra_write_file (var : Variant) (d : Nat) (s : World) :
    (ra_write var d s).file = s.file := by
  cases var
  · by_cases h : s.i2cRet s.i2cCalls < 0 <;> simp [ra_write, lgI2cWriteByte, usleep, h]
  · simp [ra_write, lgI2cWriteByte, usleep]

@[simp] theorem ra_write_fopenW (var : Variant) (d : Nat) (s : World) :
    (ra_write var d s).fopenW = s.fopenW := by
  cases var
  · by_cases h : s.i2cRet s.i2cCalls < 0 <;> simp [ra_write, lgI2cWriteByte, usleep, h]
  · simp [ra_write, lgI2cWriteByte, usleep]

@[simp] theorem ra_write_fopenCalls (var : Variant) (d : Nat) (s : World) :
    (ra_write var d s).fopenCalls = s.fopenCalls := by
  cases var
  · by_cases h : s.i2cRet s.i2cCalls < 0 <;> simp [ra_write, lgI2cWriteByte, usleep, h]
  · simp [ra_write, lgI2cWriteByte, usleep]

/-! ### `saveVol` touches the file, the trace and the fopen counter only -/

@[simp] theorem saveVol_vol (d : Int) (s : World) : (saveVol d s).vol = s.vol := by
  by_cases h : s.fopenW s.fopenCalls = true <;> simp [saveVol, h]

@[simp] theorem saveVol_mute (d : Int) (s : World) : (saveVol d s).mute = s.mute := by
  by_cases h : s.fopenW s.fopenCalls = true <;> simp [saveVol, h]

@[simp] theorem saveVol_trace (d : Int) (s : World) :
    (saveVol d s).trace = s.trace ++ [Event.save d] := by
  by_cases h : s.fopenW s.fopenCalls = true <;> simp [saveVol, h]

theorem saveVol_file (d : Int) (s : World) :
    (saveVol d s).file = if s.fopenW s.fopenCalls = true then some (fprintf_x d) else s.file := by
  by_cases h : s.fopenW s.fopenCalls = true <;> simp [saveVol, h]

theorem relayWords_append (a b : List Event) :
    relayWords (a ++ b) = relayWords a ++ relayWords b := by
  simp [relayWords, List.filterMap_append]

theorem busValues_append (a b : List Event) :
    busValues (a ++ b) = busValues a ++ busValues b := by
  simp [busValues, List.filterMap_append]

theorem savedValues_append (a b : List Event) :
    savedValues (a ++ b) = savedValues a ++ savedValues b := by
  simp [savedValues, List.filterMap_append]

@[simp] theorem relayWords_relaySeq (var : Variant) (s : World) (w : Nat) :
    relayWords (relaySeq var s w) = [w] := by
  unfold relaySeq relayWords
  split <;> simp [List.filterMap_cons]

@[simp] theorem savedValues_relaySeq (var : Variant) (s : World) (w : Nat) :
    savedValues (relaySeq var s w) = [] := by
  unfold relaySeq savedValues
  split <;> simp [List.filterMap_cons]

/-! ### Trace and state of the volume operations -/

theorem ra_vol_set_ok (var : Variant) (v : Int) (s : World) (h0 : 0 ≤ v) (h1 : v ≤ 63) :
    (ra_vol_set var v s).1 = 0 ∧ (ra_vol_set var v s).2.vol = v.toNat ∧
    (ra_vol_set var v s).2.mute = 0 ∧
    (ra_vol_set var v s).2.trace
      = s.trace ++ relaySeq var s (unmutedWord v.toNat) ++ [Event.save v] ∧
    (ra_vol_set var v s).2.file
      = if s.fopenW s.fopenCalls = true then some (fprintf_x v) else s.file := by
  have hu : toUInt32 v = v.toNat := toUInt32_small v h0 (by omega)
  have hi : toInt32 v.toNat = v := by
    rw [toInt32_small _ (by omega)]
    exact Int.toNat_of_nonneg h0
  have hc : v ≥ 0 ∧ v ≤ 0x3f := ⟨h0, h1⟩
  simp only [ra_vol_set, if_pos hc, hu]
  refine ⟨trivial, ?_, ?_, ?_, ?_⟩
  · simp
  · simp
  · simp [ra_write_trace, relaySeq, unmutedWord, hi]
  · simp [saveVol_file, hi]

theorem ra_vol_set_bad (var : Variant) (v : Int) (s : World) (h : v < 0 ∨ 63 < v) :
    ra_vol_set var v s = (1, s) := by
  have hc : ¬ (v ≥ 0 ∧ v ≤ 0x3f) := by
    intro hh
    have h2 : v ≤ 63 := hh.2
    omega
  simp only [ra_vol_set, if_neg hc]

theorem ra_vol_inc_ok (var : Variant) (s : World) (h : s.vol < 63) :
    (ra_vol_inc var s).1 = 0 ∧ (ra_vol_inc var s).2.vol = s.vol + 1 ∧
    (ra_vol_inc var s).2.mute = 0 ∧
    (ra_vol_inc var s).2.trace
      = s.trace ++ relaySeq var s (unmutedWord (s.vol + 1)) ++ [Event.save ((s.vol + 1 : Nat) : Int)] ∧
    (ra_vol_inc var s).2.file
      = if s.fopenW s.fopenCalls = true then some (fprintf_x ((s.vol + 1 : Nat) : Int)) else s.file := by
  have hc : ¬ (s.vol ≥ 0x3f) := by
    intro hh
    have h2 : 63 ≤ s.vol := hh
    omega
  have hm : (s.vol + 1) % 4294967296 = s.vol + 1 := Nat.mod_eq_of_lt (by omega)
  have hi : toInt32 (s.vol + 1) = ((s.vol + 1 : Nat) : Int) := toInt32_small _ (by omega)
  simp only [ra_vol_inc, if_neg hc, hm]
  refine ⟨trivial, ?_, ?_, ?_, ?_⟩
  · simp
  · simp
  · simp [ra_write_trace, relaySeq, unmutedWord, hi]
  · simp [saveVol_file, hi]

theorem ra_vol_dec_ok (var : Variant) (s : World) (h : 0 < s.vol) (hty : s.vol < 4294967296) :
    (ra_vol_dec var s).1 = 0 ∧ (ra_vol_dec var s).2.vol = s.vol - 1 ∧
    (ra_vol_dec var s).2.mute = 0 ∧
    (ra_vol_dec var s).2.trace
      = s.trace ++ relaySeq var s (unmutedWord (s.vol - 1))
          ++ [Event.save (toInt32 (s.vol - 1))] ∧
    (ra_vol_dec var s).2.file
      = if s.fopenW s.fopenCalls = true then some (fprintf_x (toInt32 (s.vol - 1))) else s.file := by
  have hc : ¬ (s.vol ≤ 0) := by omega
  have hm : (s.vol + 4294967295) % 4294967296 = s.vol - 1 := by omega
  simp only [ra_vol_dec, if_neg hc, hm]
  refine ⟨trivial, ?_, ?_, ?_, ?_⟩
  · simp
  · simp
  · simp [ra_write_trace, relaySeq, unmutedWord]
  · simp [saveVol_file]

theorem ra_vol_inc_top (var : Variant) (s : World) (h : 63 ≤ s.vol) :
    ra_vol_inc var s = (1, s) := by
  have hc : s.vol ≥ 0x3f := h
  simp only [ra_vol_inc, if_pos hc]

theorem ra_vol_dec_bottom (var : Variant) (s : World) (h : s.vol = 0) :
    ra_vol_dec var s = (1, s) := by
  have hc : s.vol ≤ 0 := by omega
  simp only [ra_vol_dec, if_pos hc]

theorem toUInt32_toInt32 (n : Nat) (h : n < 4294967296) : toUInt32 (toInt32 n) = n := by
  unfold toInt32 toUInt32
  have h1 : n % 4294967296 = n := Nat.mod_eq_of_lt h
  rw [h1]
  split <;> omega

/-! ### Trace and state of the mute operations -/

theorem ra_set_mute_bad (var : Variant) (f : Int) (s : World) (h : f ≠ 0 ∧ f ≠ 1) :
    ra_set_mute var f s = (1, s) := by
  have hc : ¬ (f = 0 ∨ f = 1) := by
    intro hh
    rcases hh with hh | hh
    · exact h.1 hh
    · exact h.2 hh
  simp only [ra_set_mute, if_neg hc]

theorem ra_set_mute_on (var : Variant) (s : World) :
    (ra_set_mute var 1 s).1 = 0 ∧ (ra_set_mute var 1 s).2.mute = 1 ∧
    (ra_set_mute var 1 s).2.vol = s.vol ∧ (ra_set_mute var 1 s).2.file = s.file ∧
    (ra_set_mute var 1 s).2.trace = s.trace ++ relaySeq var s 0 := by
  simp [ra_set_mute, ra_write_trace, relaySeq]

theorem ra_set_mute_off (var : Variant) (s : World) :
    (ra_set_mute var 0 s).1 = 0 ∧ (ra_set_mute var 0 s).2.mute = 0 ∧
    (ra_set_mute var 0 s).2.vol = s.vol ∧ (ra_set_mute var 0 s).2.file = s.file ∧
    (ra_set_mute var 0 s).2.trace = s.trace ++ relaySeq var s (unmutedWord s.vol) := by
  simp [ra_set_mute, ra_write_trace, relaySeq, unmutedWord]

theorem ra_mute_from0 (var : Variant) (s : World) (h : s.mute = 0) :
    (ra_mute var s).mute = 1 ∧ (ra_mute var s).vol = s.vol ∧ (ra_mute var s).file = s.file ∧
    (ra_mute var s).trace = s.trace ++ relaySeq var s (((4294967295 - s.vol) &&& 0xbf) % 65536) := by
  simp [ra_mute, ra_write_trace, relaySeq, h]

theorem ra_mute_from1 (var : Variant) (s : World) (h : s.mute = 1) :
    (ra_mute var s).mute = 0 ∧ (ra_mute var s).vol = s.vol ∧ (ra_mute var s).file = s.file ∧
    (ra_mute var s).trace = s.trace ++ relaySeq var s (unmutedWord s.vol) := by
  simp [ra_mute, ra_write_trace, relaySeq, unmutedWord, h]

/-! ### Loading the volume and the range invariant -/

theorem retriveVol_range (s : World) : 0 ≤ retriveVol s ∧ retriveVol s ≤ 63 := by
  unfold retriveVol DEFAULT_VOL
  split
  · exact ⟨by decide, by decide⟩
  · split
    · exact ⟨by decide, by decide⟩
    · split
      · exact ⟨by decide, by decide⟩
      · rename_i hd
        simp only [not_or, not_lt, gt_iff_lt] at hd
        omega

theorem hexrun_none_of_head (c : Char) (rest : List Char) (h : hexval c = none) :
    hexrun (c :: rest) none = none := by
  simp [hexrun, h]

theorem hexval_zero_char (c : Char) (h : c.toNat = 48) : hexval c = some 0 := by
  simp [hexval, h]

theorem fscanf_x_no_digit (c : Char) (rest : List Char) (hsp : isspace c = false)
    (hminus : c.toNat ≠ 45) (hplus : c.toNat ≠ 43) (hhex : hexval c = none) :
    fscanf_x (c :: rest) = none := by
  have hz : c.toNat ≠ 48 := by
    intro hh
    rw [hexval_zero_char c hh] at hhex
    exact Option.noConfusion hhex
  have hd : List.dropWhile isspace (c :: rest) = c :: rest := by
    simp [List.dropWhile, hsp]
  unfold fscanf_x
  rw [hd]
  simp only [if_neg hminus, if_neg hplus]
  cases rest with
  | nil => simp [hexrun, hhex]
  | cons x r => simp [hz, hexrun, hhex]

theorem hexval_range (c : Char) (h : hexval c ≠ none) :
    (48 ≤ c.toNat ∧ c.toNat ≤ 57) ∨ (97 ≤ c.toNat ∧ c.toNat ≤ 102) ∨
    (65 ≤ c.toNat ∧ c.toNat ≤ 70) := by
  by_cases h1 : 48 ≤ c.toNat ∧ c.toNat ≤ 57
  · exact Or.inl h1
  · by_cases h2 : 97 ≤ c.toNat ∧ c.toNat ≤ 102
    · exact Or.inr (Or.inl h2)
    · by_cases h3 : 65 ≤ c.toNat ∧ c.toNat ≤ 70
      · exact Or.inr (Or.inr h3)
      · exfalso
        apply h
        unfold hexval
        rw [if_neg h1, if_neg h2, if_neg h3]

/-- On a text that consists of hexadecimal digits only, `fscanf "%x"` stores
the low 32 bits of the number written, or of 2^64 - 1 when the number does not
fit 64 bits. -/
theorem fscanf_x_plain (text : List Char) (n : Nat) (hne : text ≠ [])
    (hall : ∀ c ∈ text, hexval c ≠ none) (hn : hexrun text none = some n) :
    fscanf_x text
      = some (toInt32 (if 18446744073709551616 ≤ n then 18446744073709551615 else n)) := by
  cases text with
  | nil => exact absurd rfl hne
  | cons c cs =>
    have hc := hexval_range c (hall c (List.mem_cons_self c cs))
    have hsp : isspace c = false := by
      unfold isspace
      simp only [Bool.or_eq_false_iff, Bool.and_eq_false_iff, decide_eq_false_iff_not]
      exact ⟨by omega, Or.inr (by omega)⟩
    have hd : List.dropWhile isspace (c :: cs) = c :: cs := by
      simp [List.dropWhile, hsp]
    have hminus : ¬ c.toNat = 45 := by omega
    have hplus : ¬ c.toNat = 43 := by omega
    unfold fscanf_x
    rw [hd]
    simp only [if_neg hminus, if_neg hplus]
    cases cs with
    | nil =>
      simp only [hn]
      rfl
    | cons x r =>
      have hx := hexval_range x (hall x (List.mem_cons_of_mem c (List.mem_cons_self x r)))
      have hnox : ¬ (c.toNat = 48 ∧ (x.toNat = 120 ∨ x.toNat = 88)) := by omega
      simp only [if_neg hnox, hn]
      rfl

theorem retriveVol_plain (s : World) (text : List Char) (n : Nat) (hf : s.file = some text)
    (hne : text ≠ []) (hall : ∀ c ∈ text, hexval c ≠ none) (hn : hexrun text none = some n) :
    (n < 18446744073709551616 → n % 4294967296 ≤ 63 →
      retriveVol s = ((n % 4294967296 : Nat) : Int)) ∧
    (n < 18446744073709551616 → 63 < n % 4294967296 → retriveVol s = 31) ∧
    (18446744073709551616 ≤ n → retriveVol s = 31) := by
  have hscan := fscanf_x_plain text n hne hall hn
  unfold retriveVol
  rw [hf]
  simp only [hscan, DEFAULT_VOL]
  refine ⟨?_, ?_, ?_⟩
  · intro hlt hlow
    have hnot : ¬ (18446744073709551616 ≤ n) := by omega
    rw [if_neg hnot]
    have hval : toInt32 n = ((n % 4294967296 : Nat) : Int) := by
      unfold toInt32
      rw [if_pos (by omega)]
    rw [hval]
    have hin : ¬ (((n % 4294967296 : Nat) : Int) < 0 ∨ ((n % 4294967296 : Nat) : Int) > 63) := by
      omega
    rw [if_neg hin]
  · intro hlt hhigh
    have hnot : ¬ (18446744073709551616 ≤ n) := by omega
    rw [if_neg hnot]
    have hout : toInt32 n < 0 ∨ toInt32 n > 63 := by
      unfold toInt32
      split <;> omega
    rw [if_pos hout]
  · intro hsat
    rw [if_pos hsat]
    have hout : toInt32 18446744073709551615 < 0 ∨ toInt32 18446744073709551615 > 63 := by
      decide
    rw [if_pos hout]

theorem step_inv (var : Variant) (op : Op) (s : World) (h : Inv s) : Inv (step var op s) := by
  obtain ⟨hv, hm⟩ := h
  cases op with
  | vol_set data =>
    by_cases hr : 0 ≤ data ∧ data ≤ 63
    · obtain ⟨-, h1, h2, -, -⟩ := ra_vol_set_ok var data s hr.1 hr.2
      refine ⟨?_, Or.inl h2⟩
      show (ra_vol_set var data s).2.vol ≤ 63
      rw [h1]
      omega
    · have hb : data < 0 ∨ 63 < data := by omega
      show Inv (ra_vol_set var data s).2
      rw [ra_vol_set_bad var data s hb]
      exact ⟨hv, hm⟩
  | vol_inc =>
    by_cases hr : s.vol < 63
    · obtain ⟨-, h1, h2, -, -⟩ := ra_vol_inc_ok var s hr
      refine ⟨?_, Or.inl h2⟩
      show (ra_vol_inc var s).2.vol ≤ 63
      rw [h1]
      omega
    · show Inv (ra_vol_inc var s).2
      rw [ra_vol_inc_top var s (by omega)]
      exact ⟨hv, hm⟩
  | vol_dec =>
    by_cases hr : s.vol = 0
    · show Inv (ra_vol_dec var s).2
      rw [ra_vol_dec_bottom var s hr]
      exact ⟨hv, hm⟩
    · obtain ⟨-, h1, h2, -, -⟩ := ra_vol_dec_ok var s (by omega) (by omega)
      refine ⟨?_, Or.inl h2⟩
      show (ra_vol_dec var s).2.vol ≤ 63
      rw [h1]
      omega
  | set_mute data =>
    show Inv (ra_set_mute var data s).2
    by_cases h0 : data = 0
    · subst h0
      obtain ⟨-, h1, h2, -, -⟩ := ra_set_mute_off var s
      exact ⟨by rw [h2]; exact hv, Or.inl h1⟩
    · by_cases h1 : data = 1
      · subst h1
        obtain ⟨-, h1, h2, -, -⟩ := ra_set_mute_on var s
        exact ⟨by rw [h2]; exact hv, Or.inr h1⟩
      · rw [ra_set_mute_bad var data s ⟨h0, h1⟩]
        exact ⟨hv, hm⟩
  | mute =>
    show Inv (ra_mute var s)
    rcases hm with hm | hm
    · obtain ⟨h1, h2, -, -⟩ := ra_mute_from0 var s hm
      exact ⟨by rw [h2]; exact hv, Or.inr h1⟩
    · obtain ⟨h1, h2, -, -⟩ := ra_mute_from1 var s hm
      exact ⟨by rw [h2]; exact hv, Or.inl h1⟩

theorem run_inv (var : Variant) (ops : List Op) (s : World) (h : Inv s) : Inv (run var ops s) := by
  induction ops generalizing s with
  | nil => exact h
  | cons op rest ih =>
    show Inv (run var rest (step var op s))
    exact ih (step var op s) (step_inv var op s h)

theorem init_hardware_inv (var : Variant) (s : World) (hm : s.mute = 0 ∨ s.mute = 1) :
    Inv (init_hardware var s) ∧ ((init_hardware var s).vol : Int) = retriveVol s := by
  obtain ⟨h0, h1⟩ := retriveVol_range s
  have hu : toUInt32 (retriveVol s) = (retriveVol s).toNat := toUInt32_small _ h0 (by omega)
  have hle : (retriveVol s).toNat ≤ 63 := by omega
  have hback : (((retriveVol s).toNat : Nat) : Int) = retriveVol s := Int.toNat_of_nonneg h0
  cases var with
  | source =>
    have hv : (init_hardware Variant.source s).vol = (retriveVol s).toNat := by
      simp [init_hardware, hu]
    have hmm : (init_hardware Variant.source s).mute = s.mute := by
      simp [init_hardware]
    refine ⟨⟨by rw [hv]; exact hle, by rw [hmm]; exact hm⟩, by rw [hv]; exact hback⟩
  | package =>
    have hi : toInt32 (retriveVol s).toNat = retriveVol s := by
      rw [toInt32_small _ (by omega)]
      exact hback
    have hunf : init_hardware Variant.package s
        = (ra_vol_set Variant.package (retriveVol s)
            { s with vol := (retriveVol s).toNat }).2 := by
      simp [init_hardware, hu, hi]
    obtain ⟨-, hv, hmu, -, -⟩ :=
      ra_vol_set_ok Variant.package (retriveVol s) { s with vol := (retriveVol s).toNat } h0 h1
    rw [hunf]
    exact ⟨⟨by rw [hv]; exact hle, Or.inl hmu⟩, by rw [hv]; exact hback⟩

/-! ### What reaches the bus -/

theorem busValues_relaySeq_mem (var : Variant) (s : World) (w b : Nat)
    (hb : b ∈ busValues (relaySeq var s w)) : b = 63 ∨ b = w := by
  unfold relaySeq busValues at hb
  split at hb
  · simp [List.filterMap_cons] at hb
    exact Or.inl hb
  · simp [List.filterMap_cons] at hb
    exact hb

theorem busValues_relaySeq_save_mem (var : Variant) (s : World) (w b : Nat) (d : Int)
    (hb : b ∈ busValues (relaySeq var s w ++ [Event.save d])) : b = 63 ∨ b = w := by
  rw [busValues_append] at hb
  have hs : busValues [Event.save d] = [] := rfl
  rw [hs, List.append_nil] at hb
  exact busValues_relaySeq_mem var s w b hb

theorem step_bus_values (var : Variant) (op : Op) (s : World) (hv : s.vol ≤ 63)
    (hm : s.mute = 0 ∨ s.mute = 1) (b : Nat)
    (hb : b ∈ busValues (emitted s (step var op s))) :
    b = 63 ∨ b = 0 ∨ b = 191 - (step var op s).vol ∨ b = 65535 - (step var op s).vol := by
  cases op with
  | vol_set data =>
    change b ∈ busValues (emitted s (ra_vol_set var data s).2) at hb
    show _ ∨ _ ∨ _ ∨ b = 65535 - (ra_vol_set var data s).2.vol
    by_cases hr : 0 ≤ data ∧ data ≤ 63
    · obtain ⟨-, h1, -, ht, -⟩ := ra_vol_set_ok var data s hr.1 hr.2
      rw [emitted_append s _ _ (by rw [ht, List.append_assoc])] at hb
      rcases busValues_relaySeq_save_mem var s _ b data hb with h | h
      · exact Or.inl h
      · rw [unmutedWord_le63 _ (by omega)] at h
        rw [h1]
        exact Or.inr (Or.inr (Or.inr h))
    · have hbad : data < 0 ∨ 63 < data := by omega
      rw [ra_vol_set_bad var data s hbad, emitted_append s s [] (by simp)] at hb
      cases hb
  | vol_inc =>
    change b ∈ busValues (emitted s (ra_vol_inc var s).2) at hb
    show _ ∨ _ ∨ _ ∨ b = 65535 - (ra_vol_inc var s).2.vol
    by_cases hr : s.vol < 63
    · obtain ⟨-, h1, -, ht, -⟩ := ra_vol_inc_ok var s hr
      rw [emitted_append s _ _ (by rw [ht, List.append_assoc])] at hb
      rcases busValues_relaySeq_save_mem var s _ b _ hb with h | h
      · exact Or.inl h
      · rw [unmutedWord_le63 _ (by omega)] at h
        rw [h1]
        exact Or.inr (Or.inr (Or.inr h))
    · rw [ra_vol_inc_top var s (by omega), emitted_append s s [] (by simp)] at hb
      cases hb
  | vol_dec =>
    change b ∈ busValues (emitted s (ra_vol_dec var s).2) at hb
    show _ ∨ _ ∨ _ ∨ b = 65535 - (ra_vol_dec var s).2.vol
    by_cases hr : s.vol = 0
    · rw [ra_vol_dec_bottom var s hr, emitted_append s s [] (by simp)] at hb
      cases hb
    · obtain ⟨-, h1, -, ht, -⟩ := ra_vol_dec_ok var s (by omega) (by omega)
      rw [emitted_append s _ _ (by rw [ht, List.append_assoc])] at hb
      rcases busValues_relaySeq_save_mem var s _ b _ hb with h | h
      · exact Or.inl h
      · rw [unmutedWord_le63 _ (by omega)] at h
        rw [h1]
        exact Or.inr (Or.inr (Or.inr h))
  | set_mute data =>
    change b ∈ busValues (emitted s (ra_set_mute var data s).2) at hb
    show _ ∨ _ ∨ _ ∨ b = 65535 - (ra_set_mute var data s).2.vol
    by_cases h0 : data = 0
    · subst h0
      obtain ⟨-, -, h2, -, ht⟩ := ra_set_mute_off var s
      rw [emitted_append s _ _ ht] at hb
      rcases busValues_relaySeq_mem var s _ b hb with h | h
      · exact Or.inl h
      · rw [unmutedWord_le63 _ hv] at h
        rw [h2]
        exact Or.inr (Or.inr (Or.inr h))
    · by_cases h1 : data = 1
      · subst h1
        obtain ⟨-, -, -, -, ht⟩ := ra_set_mute_on var s
        rw [emitted_append s _ _ ht] at hb
        rcases busValues_relaySeq_mem var s _ b hb with h | h
        · exact Or.inl h
        · exact Or.inr (Or.inl h)
      · rw [ra_set_mute_bad var data s ⟨h0, h1⟩, emitted_append s s [] (by simp)] at hb
        cases hb
  | mute =>
    change b ∈ busValues (emitted s (ra_mute var s)) at hb
    show _ ∨ _ ∨ b = 191 - (ra_mute var s).vol ∨ b = 65535 - (ra_mute var s).vol
    rcases hm with hm | hm
    · obtain ⟨-, h2, -, ht⟩ := ra_mute_from0 var s hm
      rw [emitted_append s _ _ ht] at hb
      rcases busValues_relaySeq_mem var s _ b hb with h | h
      · exact Or.inl h
      · rw [mutedToggleWord_le63 _ hv] at h
        rw [h2]
        exact Or.inr (Or.inr (Or.inl h))
    · obtain ⟨-, h2, -, ht⟩ := ra_mute_from1 var s hm
      rw [emitted_append s _ _ ht] at hb
      rcases busValues_relaySeq_mem var s _ b hb with h | h
      · exact Or.inl h
      · rw [unmutedWord_le63 _ hv] at h
        rw [h2]
        exact Or.inr (Or.inr (Or.inr h))

theorem step_bus_independent (var : Variant) (op : Op) (s : World) (rets : Nat → Int) :
    (step var op { s with i2cRet := rets }).vol = (step var op s).vol ∧
    (step var op { s with i2cRet := rets }).mute = (step var op s).mute ∧
    (step var op { s with i2cRet := rets }).file = (step var op s).file := by
  cases op with
  | vol_set data =>
    by_cases hr : data ≥ 0 ∧ data ≤ 0x3f
    · simp [step, ra_vol_set, hr, saveVol_file]
    · simp [step, ra_vol_set, hr]
  | vol_inc =>
    by_cases hr : s.vol ≥ 0x3f
    · simp [step, ra_vol_inc, hr]
    · simp [step, ra_vol_inc, hr, saveVol_file]
  | vol_dec =>
    by_cases hr : s.vol ≤ 0
    · simp [step, ra_vol_dec, hr]
    · simp [step, ra_vol_dec, hr, saveVol_file]
  | set_mute data =>
    by_cases hr : data = 0 ∨ data = 1
    · simp [step, ra_set_mute, hr]
    · simp [step, ra_set_mute, hr]
  | mute => simp [step, ra_mute]

/-! ### Decimal numerals: `sprintf "%d"` and `atoi` -/

theorem digitChar_toNat (n : Nat) (h : n < 10) : (Nat.digitChar n).toNat = 48 + n := by
  interval_cases n <;> rfl

theorem decrun_append (ds rest : List Char) (k : Nat)
    (hds : ∀ c ∈ ds, 48 ≤ c.toNat ∧ c.toNat ≤ 57) :
    decrun (ds ++ rest) k = decrun rest (decrun ds k) := by
  induction ds generalizing k with
  | nil => rfl
  | cons c cs ih =>
    have hc : 48 ≤ c.toNat ∧ c.toNat ≤ 57 := hds c (List.mem_cons_self c cs)
    have hcs : ∀ x ∈ cs, 48 ≤ x.toNat ∧ x.toNat ≤ 57 :=
      fun x hx => hds x (List.mem_cons_of_mem c hx)
    simp only [List.cons_append, decrun, if_pos hc]
    exact ih _ hcs

theorem decimal_run_of_fuel (fuel n : Nat) (acc : List Char) (hfuel : n < fuel) :
    ∃ ds : List Char, (∀ c ∈ ds, 48 ≤ c.toNat ∧ c.toNat ≤ 57) ∧ decrun ds 0 = n ∧
      ds ≠ [] ∧ Nat.toDigitsCore 10 fuel n acc = ds ++ acc := by
  induction fuel generalizing n acc with
  | zero => omega
  | succ fuel ih =>
    have hlow : n % 10 < 10 := Nat.mod_lt n (by decide)
    have hd : (Nat.digitChar (n % 10)).toNat = 48 + n % 10 := digitChar_toNat (n % 10) hlow
    have hdig : 48 ≤ (Nat.digitChar (n % 10)).toNat ∧ (Nat.digitChar (n % 10)).toNat ≤ 57 := by
      omega
    by_cases h0 : n / 10 = 0
    · refine ⟨[Nat.digitChar (n % 10)], ?_, ?_, by simp, by simp [Nat.toDigitsCore, h0]⟩
      · intro c hc
        rw [List.mem_singleton] at hc
        rw [hc]
        exact hdig
      · show decrun [Nat.digitChar (n % 10)] 0 = n
        simp only [decrun]
        rw [if_pos hdig, hd]
        omega
    · have hquot : n / 10 < fuel := by omega
      have hrec := ih (n / 10) (Nat.digitChar (n % 10) :: acc) hquot
      obtain ⟨ds, hall, hval, -, he⟩ := hrec
      have hcore : Nat.toDigitsCore 10 (fuel + 1) n acc
          = (ds ++ [Nat.digitChar (n % 10)]) ++ acc := by
        simp [Nat.toDigitsCore, h0, he]
      refine ⟨ds ++ [Nat.digitChar (n % 10)], ?_, ?_, by simp, hcore⟩
      · intro c hc
        rcases List.mem_append.mp hc with hc | hc
        · exact hall c hc
        · rw [List.mem_singleton] at hc
          rw [hc]
          exact hdig
      · rw [decrun_append ds _ 0 hall, hval]
        simp only [decrun]
        rw [if_pos hdig, hd]
        omega

theorem toDigits_spec (n : Nat) :
    (∀ c ∈ Nat.toDigits 10 n, 48 ≤ c.toNat ∧ c.toNat ≤ 57) ∧ Nat.toDigits 10 n ≠ [] ∧
    decrun (Nat.toDigits 10 n) 0 = n := by
  obtain ⟨ds, hall, hval, hne, he⟩ := decimal_run_of_fuel (n + 1) n [] (by omega)
  have h : Nat.toDigits 10 n = ds := by
    unfold Nat.toDigits
    rw [he, List.append_nil]
  rw [h]
  exact ⟨hall, hne, hval⟩

theorem isspace_false_of_ge (c : Char) (h : 14 ≤ c.toNat) (h32 : c.toNat ≠ 32) :
    isspace c = false := by
  unfold isspace
  simp only [Bool.or_eq_false_iff, Bool.and_eq_false_iff, decide_eq_false_iff_not]
  constructor
  · exact h32
  · right
    omega

theorem toInt32_toUInt32 (i : Int) (h0 : -2147483648 ≤ i) (h1 : i < 2147483648) :
    toInt32 (toUInt32 i) = i := by
  unfold toInt32 toUInt32
  have hnn : 0 ≤ i % 4294967296 := Int.emod_nonneg i (by decide)
  have hlt : i % 4294967296 < 4294967296 := Int.emod_lt_of_pos i (by decide)
  have hcast : (((i % 4294967296).toNat : Nat) : Int) = i % 4294967296 := Int.toNat_of_nonneg hnn
  have hmod : (i % 4294967296).toNat % 4294967296 = (i % 4294967296).toNat := by
    apply Nat.mod_eq_of_lt
    omega
  rw [hmod]
  split
  · rename_i hs
    rw [hcast]
    omega
  · rename_i hs
    rw [hcast]
    omega

theorem atoi_digits (ds : List Char) (hall : ∀ c ∈ ds, 48 ≤ c.toNat ∧ c.toNat ≤ 57)
    (hne : ds ≠ []) (h1 : decrun ds 0 < 2147483648) :
    atoi ds = (decrun ds 0 : Nat) := by
  cases ds with
  | nil => exact absurd rfl hne
  | cons c cs =>
    obtain ⟨hlo, hhi⟩ := hall c (List.mem_cons_self c cs)
    have hsp : isspace c = false := isspace_false_of_ge c (by omega) (by omega)
    have hd : List.dropWhile isspace (c :: cs) = c :: cs := by
      simp [List.dropWhile, hsp]
    have hm : ¬ c.toNat = 45 := by omega
    have hp : ¬ c.toNat = 43 := by omega
    have key : atoi (c :: cs) = toInt32 (toUInt32 ((decrun (c :: cs) 0 : Nat) : Int)) := by
      unfold atoi
      rw [hd]
      simp only [if_neg hm, if_neg hp]
      rfl
    rw [key]
    exact toInt32_toUInt32 _ (by omega) (by omega)

theorem atoi_minus_digits (ds : List Char) (h1 : decrun ds 0 ≤ 2147483648) :
    atoi (Char.ofNat 45 :: ds) = -((decrun ds 0 : Nat) : Int) := by
  have hsp : isspace (Char.ofNat 45) = false := by decide
  have hd : List.dropWhile isspace (Char.ofNat 45 :: ds) = Char.ofNat 45 :: ds := by
    simp [List.dropWhile, hsp]
  have hm : (Char.ofNat 45).toNat = 45 := by decide
  have key : atoi (Char.ofNat 45 :: ds) = toInt32 (toUInt32 (-((decrun ds 0 : Nat) : Int))) := by
    unfold atoi
    rw [hd]
    simp only [if_pos hm, if_true]
  rw [key]
  exact toInt32_toUInt32 _ (by omega) (by omega)

theorem atoi_sprintf_d (i : Int) (h0 : -2147483648 ≤ i) (h1 : i < 2147483648) :
    atoi (sprintf_d i) = i := by
  unfold sprintf_d
  by_cases hneg : i < 0
  · rw [if_pos hneg]
    obtain ⟨-, -, hval⟩ := toDigits_spec (-i).toNat
    rw [atoi_minus_digits _ (by rw [hval]; omega), hval]
    omega
  · rw [if_neg hneg]
    obtain ⟨hall, hne, hval⟩ := toDigits_spec i.toNat
    rw [atoi_digits _ hall hne (by rw [hval]; omega), hval]
    omega

/-! ### C strings and `strtok` -/

theorem cstr_eq_self (t : List Char) (h : ∀ c ∈ t, c.toNat ≠ 0) : cstr t = t := by
  unfold cstr
  induction t with
  | nil => rfl
  | cons c cs ih =>
    have hc : c.toNat ≠ 0 := h c (List.mem_cons_self c cs)
    have hcs : ∀ x ∈ cs, x.toNat ≠ 0 := fun x hx => h x (List.mem_cons_of_mem c hx)
    simp only [List.takeWhile, hc, ne_eq, not_false_eq_true, decide_True]
    rw [ih hcs]

theorem takeWhile_token (p : Char → Bool) (tok : List Char) (d : Char) (rest : List Char)
    (htok : ∀ c ∈ tok, p c = true) (hd : p d = false) :
    (tok ++ d :: rest).takeWhile p = tok := by
  induction tok with
  | nil => simp [List.takeWhile, hd]
  | cons c cs ih =>
    have hc : p c = true := htok c (List.mem_cons_self c cs)
    have hcs : ∀ x ∈ cs, p x = true := fun x hx => htok x (List.mem_cons_of_mem c hx)
    rw [List.cons_append, List.takeWhile_cons, hc, ih hcs]
    rfl

theorem dropWhile_token (p : Char → Bool) (tok : List Char) (d : Char) (rest : List Char)
    (htok : ∀ c ∈ tok, p c = true) (hd : p d = false) :
    (tok ++ d :: rest).dropWhile p = d :: rest := by
  induction tok with
  | nil => simp [List.dropWhile, hd]
  | cons c cs ih =>
    have hc : p c = true := htok c (List.mem_cons_self c cs)
    have hcs : ∀ x ∈ cs, p x = true := fun x hx => htok x (List.mem_cons_of_mem c hx)
    rw [List.cons_append, List.dropWhile_cons, hc]
    exact ih hcs

theorem takeWhile_all (p : Char → Bool) (tok : List Char) (htok : ∀ c ∈ tok, p c = true) :
    tok.takeWhile p = tok := by
  induction tok with
  | nil => rfl
  | cons c cs ih =>
    have hc : p c = true := htok c (List.mem_cons_self c cs)
    have hcs : ∀ x ∈ cs, p x = true := fun x hx => htok x (List.mem_cons_of_mem c hx)
    rw [List.takeWhile_cons, hc, ih hcs]
    rfl

theorem dropWhile_all (p : Char → Bool) (tok : List Char) (htok : ∀ c ∈ tok, p c = true) :
    tok.dropWhile p = [] := by
  induction tok with
  | nil => rfl
  | cons c cs ih =>
    have hc : p c = true := htok c (List.mem_cons_self c cs)
    have hcs : ∀ x ∈ cs, p x = true := fun x hx => htok x (List.mem_cons_of_mem c hx)
    rw [List.dropWhile_cons, hc]
    exact ih hcs

theorem strtok_split (delim tok : List Char) (d : Char) (rest : List Char) (hne : tok ≠ [])
    (htok : ∀ c ∈ tok, delim.contains c = false) (hd : delim.contains d = true) :
    strtok delim (tok ++ d :: rest) = (some tok, rest) := by
  cases tok with
  | nil => exact absurd rfl hne
  | cons c cs =>
    have hc : delim.contains c = false := htok c (List.mem_cons_self c cs)
    have hp : ∀ x ∈ c :: cs, (fun x => !delim.contains x) x = true := by
      intro x hx
      show (!delim.contains x) = true
      rw [htok x hx]
      rfl
    have hpd : (fun x => !delim.contains x) d = false := by
      show (!delim.contains d) = false
      rw [hd]
      rfl
    have h1 : List.dropWhile (fun x => delim.contains x) (c :: cs ++ d :: rest)
        = c :: (cs ++ d :: rest) := by
      rw [List.cons_append, List.dropWhile_cons, hc]
      rfl
    unfold strtok
    rw [h1]
    have h2 := takeWhile_token (fun x => !delim.contains x) (c :: cs) d rest hp hpd
    have h3 := dropWhile_token (fun x => !delim.contains x) (c :: cs) d rest hp hpd
    simp only [List.cons_append] at h2 h3
    simp only [h2, h3, List.drop_one, List.tail_cons]

theorem strtok_single (delim tok : List Char) (hne : tok ≠ [])
    (htok : ∀ c ∈ tok, delim.contains c = false) :
    strtok delim tok = (some tok, []) := by
  cases tok with
  | nil => exact absurd rfl hne
  | cons c cs =>
    have hc : delim.contains c = false := htok c (List.mem_cons_self c cs)
    have hp : ∀ x ∈ c :: cs, (fun x => !delim.contains x) x = true := by
      intro x hx
      show (!delim.contains x) = true
      rw [htok x hx]
      rfl
    have h1 : List.dropWhile (fun x => delim.contains x) (c :: cs) = c :: cs := by
      rw [List.dropWhile_cons, hc]
      rfl
    unfold strtok
    rw [h1]
    have h2 := takeWhile_all (fun x => !delim.contains x) (c :: cs) hp
    have h3 := dropWhile_all (fun x => !delim.contains x) (c :: cs) hp
    simp only [h2, h3, List.drop_nil]

/-! ### Evaluation of `process_hw_input` -/

theorem process_hw_input_unfold (var : Variant) (string : List Char) (s : World) :
    process_hw_input var string s =
      match actionOf string with
      | none => none
      | some action =>
        if action = "SET_VOLUME".toList then
          some (if (ra_vol_set var (valueOf var string) s).1 = 1 then "FAILURE".toList
                else "SUCCESS".toList, (ra_vol_set var (valueOf var string) s).2)
        else if action = "GET_VOLUME".toList then some (sprintf_d (ra_vol_get s), s)
        else if action = "SET_MUTE".toList then
          some (if (ra_set_mute var (valueOf var string) s).1 = 1 then "FAILURE".toList
                else "SUCCESS".toList, (ra_set_mute var (valueOf var string) s).2)
        else if action = "GET_MUTE".toList then some (sprintf_d (ra_get_mute s), s)
        else some ("FAILURE".toList, s) := rfl

theorem contains_single_false (d c : Char) (h : c ≠ d) : [d].contains c = false := by
  have hb : (c == d) = false := beq_eq_false_iff_ne.mpr h
  simp only [List.contains, List.elem, hb]

theorem char_ne_of_toNat (c d : Char) (h : c.toNat ≠ d.toNat) : c ≠ d := by
  intro hh
  exact h (by rw [hh])

theorem sprintf_d_chars (i : Int) :
    sprintf_d i ≠ [] ∧ ∀ c ∈ sprintf_d i, (48 ≤ c.toNat ∧ c.toNat ≤ 57) ∨ c.toNat = 45 := by
  unfold sprintf_d
  split
  · refine ⟨List.cons_ne_nil _ _, ?_⟩
    intro c hc
    rcases List.mem_cons.mp hc with hc | hc
    · right
      rw [hc]
      rfl
    · exact Or.inl ((toDigits_spec _).1 c hc)
  · exact ⟨(toDigits_spec _).2.1, fun c hc => Or.inl ((toDigits_spec _).1 c hc)⟩

/-- A command made of an action without `=`, then `=`, then a value token
without blank, no NUL anywhere: `strtok` finds that action and that value. -/
theorem tokens_of_command (action val : List Char) (ha : action ≠ [])
    (haeq : ∀ c ∈ action, c.toNat ≠ 61 ∧ c.toNat ≠ 0) (hv : val ≠ [])
    (hvsp : ∀ c ∈ val, c.toNat ≠ 32 ∧ c.toNat ≠ 0) :
    actionOf (action ++ Char.ofNat 61 :: val) = some action ∧
    valOf (action ++ Char.ofNat 61 :: val) = some val := by
  have hnul : ∀ c ∈ action ++ Char.ofNat 61 :: val, c.toNat ≠ 0 := by
    intro c hc
    rcases List.mem_append.mp hc with hc | hc
    · exact (haeq c hc).2
    · rcases List.mem_cons.mp hc with hc | hc
      · rw [hc]
        decide
      · exact (hvsp c hc).2
  have hsplit : strtok "=".toList (action ++ Char.ofNat 61 :: val) = (some action, val) := by
    apply strtok_split _ _ _ _ ha
    · intro c hc
      exact contains_single_false _ _ (char_ne_of_toNat _ _ (haeq c hc).1)
    · decide
  have hsingle : strtok " ".toList val = (some val, []) := by
    apply strtok_single _ _ hv
    intro c hc
    exact contains_single_false _ _ (char_ne_of_toNat _ _ (hvsp c hc).1)
  unfold actionOf valOf
  rw [cstr_eq_self _ hnul, hsplit]
  exact ⟨rfl, by rw [hsingle]⟩

theorem tokens_of_numeral_command (action : List Char) (i : Int) (ha : action ≠ [])
    (haeq : ∀ c ∈ action, c.toNat ≠ 61 ∧ c.toNat ≠ 0) :
    actionOf (action ++ Char.ofNat 61 :: sprintf_d i) = some action ∧
    valOf (action ++ Char.ofNat 61 :: sprintf_d i) = some (sprintf_d i) := by
  apply tokens_of_command action (sprintf_d i) ha haeq (sprintf_d_chars i).1
  intro c hc
  rcases (sprintf_d_chars i).2 c hc with h | h
  · exact ⟨by omega, by omega⟩
  · exact ⟨by omega, by omega⟩

theorem valueOf_numeral_command (var : Variant) (action : List Char) (i : Int)
    (ha : action ≠ []) (haeq : ∀ c ∈ action, c.toNat ≠ 61 ∧ c.toNat ≠ 0)
    (h0 : -2147483648 ≤ i) (h1 : i < 2147483648) :
    valueOf var (action ++ Char.ofNat 61 :: sprintf_d i) = i := by
  unfold valueOf
  rw [(tokens_of_numeral_command action i ha haeq).2]
  exact atoi_sprintf_d i h0 h1

theorem set_volume_command (var : Variant) (i : Int) (s : World)
    (h0 : -2147483648 ≤ i) (h1 : i < 2147483648) :
    process_hw_input var ("SET_VOLUME=".toList ++ sprintf_d i) s
      = some (if (ra_vol_set var i s).1 = 1 then "FAILURE".toList else "SUCCESS".toList,
              (ra_vol_set var i s).2) := by
  have hshape : "SET_VOLUME=".toList ++ sprintf_d i
      = "SET_VOLUME".toList ++ Char.ofNat 61 :: sprintf_d i := rfl
  have ha : "SET_VOLUME".toList ≠ [] := by decide
  have haeq : ∀ c ∈ "SET_VOLUME".toList, c.toNat ≠ 61 ∧ c.toNat ≠ 0 := by decide
  rw [hshape, process_hw_input_unfold, (tokens_of_numeral_command _ i ha haeq).1,
    valueOf_numeral_command var _ i ha haeq h0 h1]
  rfl

theorem set_mute_command (var : Variant) (i : Int) (s : World)
    (h0 : -2147483648 ≤ i) (h1 : i < 2147483648) :
    process_hw_input var ("SET_MUTE=".toList ++ sprintf_d i) s
      = some (if (ra_set_mute var i s).1 = 1 then "FAILURE".toList else "SUCCESS".toList,
              (ra_set_mute var i s).2) := by
  have hshape : "SET_MUTE=".toList ++ sprintf_d i
      = "SET_MUTE".toList ++ Char.ofNat 61 :: sprintf_d i := rfl
  have ha : "SET_MUTE".toList ≠ [] := by decide
  have haeq : ∀ c ∈ "SET_MUTE".toList, c.toNat ≠ 61 ∧ c.toNat ≠ 0 := by decide
  rw [hshape, process_hw_input_unfold, (tokens_of_numeral_command _ i ha haeq).1,
    valueOf_numeral_command var _ i ha haeq h0 h1]
  rfl

theorem get_volume_command (var : Variant) (s : World) :
    process_hw_input var "GET_VOLUME".toList s = some (sprintf_d (ra_vol_get s), s) := by
  have ha : actionOf "GET_VOLUME".toList = some "GET_VOLUME".toList := by decide
  rw [process_hw_input_unfold, ha]
  rfl

theorem get_mute_command (var : Variant) (s : World) :
    process_hw_input var "GET_MUTE".toList s = some (sprintf_d (ra_get_mute s), s) := by
  have ha : actionOf "GET_MUTE".toList = some "GET_MUTE".toList := by decide
  rw [process_hw_input_unfold, ha]
  rfl

theorem set_volume_action (var : Variant) (string : List Char) (s : World)
    (ha : actionOf string = some "SET_VOLUME".toList) :
    process_hw_input var string s
      = some (if (ra_vol_set var (valueOf var string) s).1 = 1 then "FAILURE".toList
              else "SUCCESS".toList, (ra_vol_set var (valueOf var string) s).2) := by
  rw [process_hw_input_unfold, ha]
  rfl

theorem set_mute_action (var : Variant) (string : List Char) (s : World)
    (ha : actionOf string = some "SET_MUTE".toList) :
    process_hw_input var string s
      = some (if (ra_set_mute var (valueOf var string) s).1 = 1 then "FAILURE".toList
              else "SUCCESS".toList, (ra_set_mute var (valueOf var string) s).2) := by
  rw [process_hw_input_unfold, ha]
  rfl

theorem other_action (var : Variant) (string action : List Char) (s : World)
    (ha : actionOf string = some action)
    (h1 : action ≠ "SET_VOLUME".toList) (h2 : action ≠ "GET_VOLUME".toList)
    (h3 : action ≠ "SET_MUTE".toList) (h4 : action ≠ "GET_MUTE".toList) :
    process_hw_input var string s = some ("FAILURE".toList, s) := by
  rw [process_hw_input_unfold, ha]
  simp only [if_neg h1, if_neg h2, if_neg h3, if_neg h4]

theorem init_hardware_mute (var : Variant) (file : Option (List Char)) (i2cRet : Nat → Int)
    (fopenW : Nat → Bool) : (init_hardware var (boot file i2cRet fopenW)).mute = 0 := by
  obtain ⟨h0, h1⟩ := retriveVol_range (boot file i2cRet fopenW)
  cases var with
  | source => simp [init_hardware, boot]
  | package =>
    have hu : toUInt32 (retriveVol (boot file i2cRet fopenW))
        = (retriveVol (boot file i2cRet fopenW)).toNat := toUInt32_small _ h0 (by omega)
    have hi : toInt32 (retriveVol (boot file i2cRet fopenW)).toNat
        = retriveVol (boot file i2cRet fopenW) := by
      rw [toInt32_small _ (by omega)]
      exact Int.toNat_of_nonneg h0
    have hunf : init_hardware Variant.package (boot file i2cRet fopenW)
        = (ra_vol_set Variant.package (retriveVol (boot file i2cRet fopenW))
            { boot file i2cRet fopenW with
              vol := (retriveVol (boot file i2cRet fopenW)).toNat }).2 := by
      simp [init_hardware, hu, hi]
    rw [hunf]
    exact (ra_vol_set_ok Variant.package _ _ h0 h1).2.2.1

theorem atoi_non_numeric (c : Char) (rest : List Char) (hsp : isspace c = false)
    (hminus : c.toNat ≠ 45) (hplus : c.toNat ≠ 43) (hdig : ¬ (48 ≤ c.toNat ∧ c.toNat ≤ 57)) :
    atoi (c :: rest) = 0 := by
  have hd : List.dropWhile isspace (c :: rest) = c :: rest := by
    simp [List.dropWhile, hsp]
  unfold atoi
  rw [hd]
  simp only [if_neg hminus, if_neg hplus, decrun, if_neg hdig]
  rfl

theorem fscanf_fprintf_x (n : Nat) (h : n ≤ 63) : fscanf_x (fprintf_x (n : Int)) = some (n : Int) := by
  interval_cases n <;> decide

theorem retriveVol_saveVol (s : World) (n : Nat) (h : n ≤ 63)
    (hopen : s.fopenW s.fopenCalls = true) : retriveVol (saveVol (n : Int) s) = (n : Int) := by
  have hf : (saveVol (n : Int) s).file = some (fprintf_x (n : Int)) := by
    rw [saveVol_file, if_pos hopen]
  have hr : ¬ ((n : Int) < 0 ∨ (n : Int) > 0x3f) := by
    intro hh
    rcases hh with hh | hh
    · omega
    · have : (n : Int) > 63 := hh
      omega
  unfold retriveVol
  rw [hf]
  simp only [fscanf_fprintf_x n h, if_neg hr]

theorem button_switch_other (var : Variant) (sw : Int) (s : World)
    (h1 : sw ≠ 0xf7) (h2 : sw ≠ 0xfd) (h3 : sw ≠ 0xfe) : button_switch var sw s = s := by
  unfold button_switch
  rw [if_neg h1, if_neg h2, if_neg h3]

theorem process_button_event_spec (var : Variant) (rd : Int) (s : World) :
    process_button_event var rd s = button_switch var rd s := by
  cases var with
  | source =>
    by_cases hneg : rd < 0
    · have h1 : rd ≠ 0xf7 := by
        intro hh
        have : rd = 247 := hh
        omega
      have h2 : rd ≠ 0xfd := by
        intro hh
        have : rd = 253 := hh
        omega
      have h3 : rd ≠ 0xfe := by
        intro hh
        have : rd = 254 := hh
        omega
      have hr : ra_read Variant.source rd = -1 := by
        unfold ra_read
        simp only [if_pos hneg]
      have hlt : ra_read Variant.source rd < 0 := by
        rw [hr]
        decide
      rw [button_switch_other _ _ _ h1 h2 h3]
      unfold process_button_event
      simp only [if_pos hlt]
    · have hr : ra_read Variant.source rd = rd := by
        unfold ra_read
        simp only [if_neg hneg]
      unfold process_button_event
      simp only [hr, if_neg hneg]
  | package => rfl

/-! ### The IR handler -/

theorem startsWith_append (needle rest : List Char) : startsWith (needle ++ rest) needle = true := by
  induction needle with
  | nil => cases rest <;> rfl
  | cons c cs ih =>
    show (c == c && startsWith (cs ++ rest) cs) = true
    rw [ih, beq_self_eq_true]
    rfl

theorem strstr_of_startsWith (hay needle : List Char) (h : startsWith hay needle = true) :
    strstr hay needle = true := by
  cases hay with
  | nil => exact h
  | cons c cs =>
    show (startsWith (c :: cs) needle || strstr cs needle) = true
    rw [h]
    rfl

theorem strstr_append_left (pre hay needle : List Char) (h : strstr hay needle = true) :
    strstr (pre ++ hay) needle = true := by
  induction pre with
  | nil => exact h
  | cons c cs ih =>
    show (startsWith (c :: (cs ++ hay)) needle || strstr (cs ++ hay) needle) = true
    rw [ih, Bool.or_true]

theorem strstr_middle (pre needle post : List Char) :
    strstr (pre ++ (needle ++ post)) needle = true :=
  strstr_append_left pre _ needle (strstr_of_startsWith _ _ (startsWith_append needle post))

theorem blank_free (tok : List Char) (h : ∀ c ∈ tok, c.toNat ≠ 32) :
    ∀ c ∈ tok, " ".toList.contains c = false := by
  intro c hc
  exact contains_single_false _ _ (char_ne_of_toNat _ _ (h c hc))

theorem third_token (code rep button remote : List Char)
    (hc : code ≠ [] ∧ ∀ c ∈ code, c.toNat ≠ 32) (hr : rep ≠ [] ∧ ∀ c ∈ rep, c.toNat ≠ 32)
    (hb : button ≠ [] ∧ ∀ c ∈ button, c.toNat ≠ 32) :
    (strtok " ".toList (strtok " ".toList (strtok " ".toList
      (code ++ Char.ofNat 32 :: (rep ++ Char.ofNat 32 :: (button ++ Char.ofNat 32 :: remote)))).2).2).1
      = some button := by
  have hd : " ".toList.contains (Char.ofNat 32) = true := by decide
  rw [strtok_split _ code _ _ hc.1 (blank_free code hc.2) hd]
  simp only []
  rw [strtok_split _ rep _ _ hr.1 (blank_free rep hr.2) hd]
  simp only []
  rw [strtok_split _ button _ _ hb.1 (blank_free button hb.2) hd]

theorem process_IR_input_source (line button : List Char) (s : World)
    (h3 : (strtok " ".toList (strtok " ".toList (strtok " ".toList line).2).2).1 = some button) :
    process_IR_input Variant.source line s =
      if button = "KEY_VOLUMEUP".toList then (ra_vol_inc Variant.source s).2
      else if button = "KEY_VOLUMEDOWN".toList then (ra_vol_dec Variant.source s).2
      else if button = "KEY_MUTE".toList then ra_mute Variant.source s
      else s := by
  unfold process_IR_input
  simp only [h3]

theorem process_IR_input_package (line : List Char) (s : World) :
    process_IR_input Variant.package line s =
      if strstr line "KEY_VOLUMEUP".toList = true then (ra_vol_inc Variant.package s).2
      else if strstr line "KEY_VOLUMEDOWN".toList = true then (ra_vol_dec Variant.package s).2
      else if strstr line "KEY_MUTE".toList = true then ra_mute Variant.package s
      else s := rfl

/-! ### The client table -/

theorem store_client_length (new_socket : Int) (table : List Int) :
    (store_client new_socket table).length = table.length := by
  induction table with
  | nil => rfl
  | cons sd rest ih =>
    unfold store_client
    split
    · rfl
    · simp only [List.length_cons, ih]

theorem store_client_full (new_socket : Int) (table : List Int) (h : ∀ sd ∈ table, sd ≠ 0) :
    store_client new_socket table = table := by
  induction table with
  | nil => rfl
  | cons sd rest ih =>
    have h0 : sd ≠ 0 := h sd (List.mem_cons_self sd rest)
    have hrest : ∀ x ∈ rest, x ≠ 0 := fun x hx => h x (List.mem_cons_of_mem sd hx)
    unfold store_client
    rw [if_neg h0, ih hrest]

theorem store_client_first_free (new_socket : Int) (pre post : List Int)
    (h : ∀ sd ∈ pre, sd ≠ 0) :
    store_client new_socket (pre ++ 0 :: post) = pre ++ new_socket :: post := by
  induction pre with
  | nil =>
    show store_client new_socket (0 :: post) = new_socket :: post
    unfold store_client
    rw [if_pos rfl]
  | cons sd rest ih =>
    have h0 : sd ≠ 0 := h sd (List.mem_cons_self sd rest)
    have hrest : ∀ x ∈ rest, x ≠ 0 := fun x hx => h x (List.mem_cons_of_mem sd hx)
    show store_client new_socket (sd :: (rest ++ 0 :: post)) = sd :: (rest ++ new_socket :: post)
    unfold store_client
    rw [if_neg h0, ih hrest]

theorem store_client_keeps (new_socket : Int) (table : List Int) (i : Nat) (sd : Int)
    (hi : table[i]? = some sd) (hsd : sd ≠ 0) : (store_client new_socket table)[i]? = some sd := by
  induction table generalizing i with
  | nil => simp at hi
  | cons c rest ih =>
    unfold store_client
    cases i with
    | zero =>
      have hc : c = sd := by simpa using hi
      have hc0 : c ≠ 0 := by rw [hc]; exact hsd
      rw [if_neg hc0]
      simpa using hc
    | succ j =>
      have hj : rest[j]? = some sd := by simpa using hi
      split
      · simpa using hj
      · simpa using ih j hj

theorem store_client_mem (new_socket : Int) (table : List Int) (sd : Int)
    (h : sd ∈ table) (hsd : sd ≠ 0) : sd ∈ store_client new_socket table := by
  induction table with
  | nil => cases h
  | cons c rest ih =>
    unfold store_client
    rcases List.mem_cons.mp h with h | h
    · have hc0 : c ≠ 0 := by rw [← h]; exact hsd
      rw [if_neg hc0, h]
      exact List.mem_cons_self _ _
    · split
      · exact List.mem_cons_of_mem _ h
      · exact List.mem_cons_of_mem _ (ih h)

theorem serve_clients_writes (var : Variant) (readfds : List Int)
    (input : Int → Option (List Char)) (table : List Int) :
    ∀ (s : World) (r : List Int × List (Int × List Char) × World),
      serve_clients var readfds input table s = some r →
      ∀ w ∈ r.2.1, w.1 ∈ table ∧ w.1 ∈ readfds := by
  induction table with
  | nil =>
    intro s r h w hw
    have hr : r = ([], [], s) := by
      simp only [serve_clients, Option.some.injEq] at h
      exact h.symm
    rw [hr] at hw
    cases hw
  | cons sd rest ih =>
    intro s r h w hw
    unfold serve_clients at h
    split at h
    · rename_i hcond
      split at h
      · split at h
        · exact Option.noConfusion h
        · rename_i r1 hr1
          have hr : r = (0 :: r1.1, r1.2.1, r1.2.2) := (Option.some.inj h).symm
          rw [hr] at hw
          have := ih s r1 hr1 w hw
          exact ⟨List.mem_cons_of_mem _ this.1, this.2⟩
      · split at h
        · exact Option.noConfusion h
        · rename_i reply hreply
          split at h
          · exact Option.noConfusion h
          · rename_i r1 hr1
            have hr : r = (sd :: r1.1, (sd, reply.1) :: r1.2.1, r1.2.2) :=
              (Option.some.inj h).symm
            rw [hr] at hw
            rcases List.mem_cons.mp hw with hw | hw
            · rw [hw]
              exact ⟨List.mem_cons_self _ _, hcond.2⟩
            · have := ih reply.2 r1 hr1 w hw
              exact ⟨List.mem_cons_of_mem _ this.1, this.2⟩
    · split at h
      · exact Option.noConfusion h
      · rename_i r1 hr1
        have hr : r = (sd :: r1.1, r1.2.1, r1.2.2) := (Option.some.inj h).symm
        rw [hr] at hw
        have := ih s r1 hr1 w hw
        exact ⟨List.mem_cons_of_mem _ this.1, this.2⟩

theorem unmutedWord_low8 (v : Nat) (h : v ≤ 63) :
    unmutedWord v = 65535 - v ∧ unmutedWord v % 256 = 255 - v := by
  have h1 := unmutedWord_le63 v h
  refine ⟨h1, ?_⟩
  rw [h1]
  omega

/-! ### The two variants side by side -/

theorem ra_write_same (d : Nat) (s : World) (h : 0 ≤ s.i2cRet s.i2cCalls) :
    ra_write Variant.source d s = ra_write Variant.package d s := by
  have hnot : ¬ (s.i2cRet s.i2cCalls < 0) := by omega
  simp [ra_write, lgI2cWriteByte, usleep, hnot]

theorem ra_vol_set_same (v : Int) (s : World) (h : 0 ≤ s.i2cRet s.i2cCalls) :
    ra_vol_set Variant.source v s = ra_vol_set Variant.package v s := by
  unfold ra_vol_set
  by_cases hr : v ≥ 0 ∧ v ≤ 0x3f
  · simp only [if_pos hr]
    rw [ra_write_same _ { s with vol := toUInt32 v } h]
  · simp only [if_neg hr]

theorem ra_set_mute_same (f : Int) (s : World) (h : 0 ≤ s.i2cRet s.i2cCalls) :
    ra_set_mute Variant.source f s = ra_set_mute Variant.package f s := by
  unfold ra_set_mute
  by_cases hr : f = 0 ∨ f = 1
  · simp only [if_pos hr]
    rw [ra_write_same _ { s with mute := (f % 256).toNat } h]
  · simp only [if_neg hr]

theorem valueOf_same (string val : List Char) (h : valOf string = some val) :
    valueOf Variant.source string = valueOf Variant.package string := by
  unfold valueOf
  rw [h]

theorem valueOf_absent (string : List Char) (h : valOf string = none) :
    valueOf Variant.source string = 0 ∧ valueOf Variant.package string = 70 := by
  unfold valueOf
  rw [h]
  exact ⟨rfl, rfl⟩

theorem sameOutcome_refl (s : World) (a : List Char × World) : sameOutcome s a a :=
  ⟨rfl, rfl, rfl, rfl, rfl⟩

theorem get_volume_action (var : Variant) (string : List Char) (s : World)
    (ha : actionOf string = some "GET_VOLUME".toList) :
    process_hw_input var string s = some (sprintf_d (ra_vol_get s), s) := by
  rw [process_hw_input_unfold, ha]
  rfl

theorem get_mute_action (var : Variant) (string : List Char) (s : World)
    (ha : actionOf string = some "GET_MUTE".toList) :
    process_hw_input var string s = some (sprintf_d (ra_get_mute s), s) := by
  rw [process_hw_input_unfold, ha]
  rfl

/-- With an action token and a value token, or with an action other than
SET_VOLUME and SET_MUTE, both variants return the very same reply and state. -/
theorem process_hw_input_same (s : World) (string action : List Char)
    (ha : actionOf string = some action) (hbus : 0 ≤ s.i2cRet s.i2cCalls)
    (hcase : ¬ ((action = "SET_VOLUME".toList ∨ action = "SET_MUTE".toList) ∧
      valOf string = none)) :
    process_hw_input Variant.source string s = process_hw_input Variant.package string s := by
  by_cases h1 : action = "SET_VOLUME".toList
  · have hval : valOf string ≠ none := fun hn => hcase ⟨Or.inl h1, hn⟩
    obtain ⟨val, hsome⟩ := Option.ne_none_iff_exists'.mp hval
    rw [h1] at ha
    rw [set_volume_action _ _ _ ha, set_volume_action _ _ _ ha, valueOf_same string val hsome,
      ra_vol_set_same _ _ hbus]
  · by_cases h3 : action = "SET_MUTE".toList
    · have hval : valOf string ≠ none := fun hn => hcase ⟨Or.inr h3, hn⟩
      obtain ⟨val, hsome⟩ := Option.ne_none_iff_exists'.mp hval
      rw [h3] at ha
      rw [set_mute_action _ _ _ ha, set_mute_action _ _ _ ha, valueOf_same string val hsome,
        ra_set_mute_same _ _ hbus]
    · by_cases h2 : action = "GET_VOLUME".toList
      · rw [h2] at ha
        rw [get_volume_action _ _ _ ha, get_volume_action _ _ _ ha]
      · by_cases h4 : action = "GET_MUTE".toList
        · rw [h4] at ha
          rw [get_mute_action _ _ _ ha, get_mute_action _ _ _ ha]
        · rw [other_action _ _ _ _ ha h1 h2 h3 h4, other_action _ _ _ _ ha h1 h2 h3 h4]

/-- Without a value token SET_VOLUME and SET_MUTE are answered "SUCCESS" by the
source variant and "FAILURE" by the package variant. -/
theorem process_hw_input_differ (s : World) (string action : List Char)
    (ha : actionOf string = some action)
    (hact : action = "SET_VOLUME".toList ∨ action = "SET_MUTE".toList)
    (hval : valOf string = none) :
    (∃ t : World, process_hw_input Variant.source string s = some ("SUCCESS".toList, t)) ∧
    process_hw_input Variant.package string s = some ("FAILURE".toList, s) := by
  obtain ⟨hsrc, hpkg⟩ := valueOf_absent string hval
  rcases hact with h | h
  · rw [h] at ha
    constructor
    · refine ⟨(ra_vol_set Variant.source 0 s).2, ?_⟩
      rw [set_volume_action _ _ _ ha, hsrc,
        (ra_vol_set_ok Variant.source 0 s (by decide) (by decide)).1]
      rfl
    · rw [set_volume_action _ _ _ ha, hpkg,
        ra_vol_set_bad Variant.package 70 s (Or.inr (by decide))]
      rfl
  · rw [h] at ha
    constructor
    · refine ⟨(ra_set_mute Variant.source 0 s).2, ?_⟩
      rw [set_mute_action _ _ _ ha, hsrc, (ra_set_mute_off Variant.source s).1]
      rfl
    · rw [set_mute_action _ _ _ ha, hpkg,
        ra_set_mute_bad Variant.package 70 s ⟨by decide, by decide⟩]
      rfl

theorem process_hw_input_some (var : Variant) (s : World) (string action : List Char)
    (ha : actionOf string = some action) :
    ∃ r : List Char × World, process_hw_input var string s = some r := by
  rw [process_hw_input_unfold, ha]
  simp only []
  split
  · exact ⟨_, rfl⟩
  · split
    · exact ⟨_, rfl⟩
    · split
      · exact ⟨_, rfl⟩
      · split
        · exact ⟨_, rfl⟩
        · exact ⟨_, rfl⟩

/-! ### Polling and serving the clients of the table -/

theorem fd_set_clients_mem (table : List Int) (sd : Int) :
    sd ∈ fd_set_clients table ↔ sd ∈ table ∧ 0 < sd := by
  unfold fd_set_clients
  rw [List.mem_filter]
  constructor
  · intro h
    exact ⟨h.1, by simpa using h.2⟩
  · intro h
    exact ⟨h.1, by simpa using h.2⟩

theorem store_client_stores (new_socket : Int) (table : List Int) (h : (0 : Int) ∈ table) :
    new_socket ∈ store_client new_socket table := by
  induction table with
  | nil => cases h
  | cons c rest ih =>
    unfold store_client
    by_cases hc : c = 0
    · rw [if_pos hc]
      exact List.mem_cons_self _ _
    · rw [if_neg hc]
      rcases List.mem_cons.mp h with h | h
      · exact absurd h.symm hc
      · exact List.mem_cons_of_mem _ (ih h)

theorem serve_clients_total (var : Variant) (readfds : List Int)
    (input : Int → Option (List Char))
    (hin : ∀ (sd : Int) (buffer : List Char), input sd = some buffer →
      ∃ action, actionOf buffer = some action)
    (table : List Int) :
    ∀ s : World, ∃ r, serve_clients var readfds input table s = some r := by
  induction table with
  | nil =>
    intro s
    exact ⟨([], [], s), rfl⟩
  | cons sd rest ih =>
    intro s
    unfold serve_clients
    split
    · cases hdata : input sd with
      | none =>
        obtain ⟨r1, hr1⟩ := ih s
        simp only [hr1]
        exact ⟨_, rfl⟩
      | some buffer =>
        obtain ⟨action, ha⟩ := hin sd buffer hdata
        obtain ⟨reply, hreply⟩ := process_hw_input_some var s buffer action ha
        obtain ⟨r1, hr1⟩ := ih reply.2
        simp only [hreply, hr1]
        exact ⟨_, rfl⟩
    · obtain ⟨r1, hr1⟩ := ih s
      simp only [hr1]
      exact ⟨_, rfl⟩

theorem serve_clients_serves (var : Variant) (readfds : List Int)
    (input : Int → Option (List Char)) (table : List Int) :
    ∀ (s : World) (r : List Int × List (Int × List Char) × World),
      serve_clients var readfds input table s = some r →
      r.1.length = table.length ∧
      ∀ sd ∈ table, (var = Variant.package ∨ sd > 0) → sd ∈ readfds →
        ∀ buffer, input sd = some buffer →
          ∃ (s1 : World) (out : List Char × World),
            process_hw_input var buffer s1 = some out ∧ (sd, out.1) ∈ r.2.1 := by
  induction table with
  | nil =>
    intro s r h
    have hr : r = ([], [], s) := by
      simp only [serve_clients, Option.some.injEq] at h
      exact h.symm
    rw [hr]
    refine ⟨rfl, ?_⟩
    intro sd hsd
    cases hsd
  | cons c rest ih =>
    intro s r h
    unfold serve_clients at h
    split at h
    · rename_i hcond
      split at h
      · rename_i hnodata
        split at h
        · exact Option.noConfusion h
        · rename_i r1 hr1
          have hr : r = (0 :: r1.1, r1.2.1, r1.2.2) := (Option.some.inj h).symm
          obtain ⟨hlen, hserve⟩ := ih s r1 hr1
          rw [hr]
          refine ⟨by simp only [List.length_cons, hlen], ?_⟩
          intro sd hsd hpos hready buffer hbuf
          rcases List.mem_cons.mp hsd with hsd | hsd
          · rw [hsd, hnodata] at hbuf
            exact Option.noConfusion hbuf
          · exact hserve sd hsd hpos hready buffer hbuf
      · rename_i buffer0 hdata
        split at h
        · exact Option.noConfusion h
        · rename_i reply hreply
          split at h
          · exact Option.noConfusion h
          · rename_i r1 hr1
            have hr : r = (c :: r1.1, (c, reply.1) :: r1.2.1, r1.2.2) :=
              (Option.some.inj h).symm
            obtain ⟨hlen, hserve⟩ := ih reply.2 r1 hr1
            rw [hr]
            refine ⟨by simp only [List.length_cons, hlen], ?_⟩
            intro sd hsd hpos hready buffer hbuf
            rcases List.mem_cons.mp hsd with hsd | hsd
            · rw [hsd, hdata] at hbuf
              have hb : buffer0 = buffer := Option.some.inj hbuf
              rw [hsd]
              refine ⟨s, reply, ?_, List.mem_cons_self _ _⟩
              rw [← hb]
              exact hreply
            · obtain ⟨s1, out, hout, hmem⟩ := hserve sd hsd hpos hready buffer hbuf
              exact ⟨s1, out, hout, List.mem_cons_of_mem _ hmem⟩
    · rename_i hcond
      split at h
      · exact Option.noConfusion h
      · rename_i r1 hr1
        have hr : r = (c :: r1.1, r1.2.1, r1.2.2) := (Option.some.inj h).symm
        obtain ⟨hlen, hserve⟩ := ih s r1 hr1
        rw [hr]
        refine ⟨by simp only [List.length_cons, hlen], ?_⟩
        intro sd hsd hpos hready buffer hbuf
        rcases List.mem_cons.mp hsd with hsd | hsd
        · exact absurd ⟨by rw [← hsd]; exact hpos, by rw [← hsd]; exact hready⟩ hcond
        · exact hserve sd hsd hpos hready buffer hbuf

/-! ### Lock discipline -/

theorem call_locked_erase (var : Variant) (op : Op) (st : World × List LockEvent) :
    (call_locked var op st).1 = (call var op st.1).1 ∧
    (call_locked var op st).2.1 = (call var op st.1).2 := by
  cases var <;> exact ⟨rfl, rfl⟩

theorem call_locked_trace (var : Variant) (op : Op) (st : World × List LockEvent) :
    (call_locked var op st).2.2 =
      st.2 ++ (match var with
        | Variant.package =>
          [LockEvent.lock Mutex.vol_mutex,
           LockEvent.body op (emitted st.1 (call var op st.1).2),
           LockEvent.unlock Mutex.vol_mutex]
        | Variant.source => [LockEvent.body op (emitted st.1 (call var op st.1).2)]) := by
  cases var <;> rfl

theorem step_eq_call (var : Variant) (op : Op) (s : World) : step var op s = (call var op s).2 := by
  cases op <;> rfl

theorem process_hw_input_locked_erase (var : Variant) (string : List Char)
    (st : World × List LockEvent) :
    (process_hw_input_locked var string st).map (fun r => (r.1, r.2.1))
      = process_hw_input var string st.1 := by
  rw [process_hw_input_unfold]
  unfold process_hw_input_locked
  cases actionOf string with
  | none => rfl
  | some action =>
    simp only []
    by_cases h1 : action = "SET_VOLUME".toList
    · simp only [if_pos h1, Option.map_some', call_locked_erase]
      rfl
    · by_cases h2 : action = "GET_VOLUME".toList
      · simp only [if_neg h1, if_pos h2, Option.map_some']
      · by_cases h3 : action = "SET_MUTE".toList
        · simp only [if_neg h1, if_neg h2, if_pos h3, Option.map_some', call_locked_erase]
          rfl
        · by_cases h4 : action = "GET_MUTE".toList
          · simp only [if_neg h1, if_neg h2, if_neg h3, if_pos h4, Option.map_some']
          · simp only [if_neg h1, if_neg h2, if_neg h3, if_neg h4, Option.map_some']

theorem button_switch_locked_erase (var : Variant) (sw : Int) (st : World × List LockEvent) :
    (button_switch_locked var sw st).1 = button_switch var sw st.1 := by
  unfold button_switch_locked button_switch
  by_cases h1 : sw = 0xf7
  · simp only [if_pos h1, call_locked_erase]
    rfl
  · by_cases h2 : sw = 0xfd
    · simp only [if_neg h1, if_pos h2, call_locked_erase]
      rfl
    · by_cases h3 : sw = 0xfe
      · simp only [if_neg h1, if_neg h2, if_pos h3, call_locked_erase]
        rfl
      · simp only [if_neg h1, if_neg h2, if_neg h3]

theorem process_button_event_locked_erase (var : Variant) (rd : Int)
    (st : World × List LockEvent) :
    (process_button_event_locked var rd st).1 = process_button_event var rd st.1 := by
  cases var with
  | source =>
    unfold process_button_event_locked process_button_event
    by_cases h : ra_read Variant.source rd < 0
    · simp only [if_pos h]
    · simp only [if_neg h]
      exact button_switch_locked_erase _ _ _
  | package => exact button_switch_locked_erase _ _ _

theorem process_IR_input_locked_erase (var : Variant) (code : List Char)
    (st : World × List LockEvent) :
    (process_IR_input_locked var code st).1 = process_IR_input var code st.1 := by
  cases var with
  | source =>
    unfold process_IR_input_locked process_IR_input
    simp only []
    cases (strtok " ".toList (strtok " ".toList (strtok " ".toList code).2).2).1 with
    | none => rfl
    | some button =>
      simp only []
      by_cases h1 : button = "KEY_VOLUMEUP".toList
      · simp only [if_pos h1, call_locked_erase]
        rfl
      · by_cases h2 : button = "KEY_VOLUMEDOWN".toList
        · simp only [if_neg h1, if_pos h2, call_locked_erase]
          rfl
        · by_cases h3 : button = "KEY_MUTE".toList
          · simp only [if_neg h1, if_neg h2, if_pos h3, call_locked_erase]
            rfl
          · simp only [if_neg h1, if_neg h2, if_neg h3]
  | package =>
    unfold process_IR_input_locked process_IR_input
    simp only []
    by_cases h1 : strstr code "KEY_VOLUMEUP".toList = true
    · simp only [if_pos h1, call_locked_erase]
      rfl
    · by_cases h2 : strstr code "KEY_VOLUMEDOWN".toList = true
      · simp only [if_neg h1, if_pos h2, call_locked_erase]
        rfl
      · by_cases h3 : strstr code "KEY_MUTE".toList = true
        · simp only [if_neg h1, if_neg h2, if_pos h3, call_locked_erase]
          rfl
        · simp only [if_neg h1, if_neg h2, if_neg h3]

theorem heldAfter_append (m : Mutex) (a b : List LockEvent) :
    ∀ held : Bool, heldAfter m (a ++ b) held = heldAfter m b (heldAfter m a held) := by
  induction a with
  | nil =>
    intro held
    rfl
  | cons e rest ih =>
    intro held
    cases e with
    | lock x => exact ih _
    | unlock x => exact ih _
    | body op evs => exact ih _

theorem guardedBy_append (m : Mutex) (a b : List LockEvent) :
    ∀ held : Bool,
      guardedBy m (a ++ b) held = (guardedBy m a held && guardedBy m b (heldAfter m a held)) := by
  induction a with
  | nil =>
    intro held
    rfl
  | cons e rest ih =>
    intro held
    cases e with
    | lock x => exact ih _
    | unlock x => exact ih _
    | body op evs =>
      show (held && guardedBy m (rest ++ b) held)
        = ((held && guardedBy m rest held) && guardedBy m b (heldAfter m rest held))
      rw [ih held, Bool.and_assoc]

theorem guarded_nil (m : Mutex) : Guarded m [] false := ⟨rfl, rfl⟩

theorem guarded_lock (m : Mutex) (lt : List LockEvent) (held : Bool) (h : Guarded m lt held) :
    Guarded m (lt ++ [LockEvent.lock m]) true := by
  obtain ⟨hg, hh⟩ := h
  unfold Guarded
  rw [guardedBy_append, heldAfter_append, hg, hh]
  simp [guardedBy, heldAfter]

theorem guarded_unlock (m : Mutex) (lt : List LockEvent) (held : Bool) (h : Guarded m lt held) :
    Guarded m (lt ++ [LockEvent.unlock m]) false := by
  obtain ⟨hg, hh⟩ := h
  unfold Guarded
  rw [guardedBy_append, heldAfter_append, hg, hh]
  simp [guardedBy, heldAfter]

theorem guarded_body (m : Mutex) (lt : List LockEvent) (op : Op) (evs : List Event)
    (h : Guarded m lt true) : Guarded m (lt ++ [LockEvent.body op evs]) true := by
  obtain ⟨hg, hh⟩ := h
  unfold Guarded
  rw [guardedBy_append, heldAfter_append, hg, hh]
  simp [guardedBy, heldAfter]

theorem guarded_bracket (m : Mutex) (lt : List LockEvent) (op : Op) (evs : List Event)
    (h : Guarded m lt false) :
    Guarded m (lt ++ [LockEvent.lock m, LockEvent.body op evs, LockEvent.unlock m]) false := by
  obtain ⟨hg, hh⟩ := h
  unfold Guarded
  rw [guardedBy_append, heldAfter_append, hg, hh]
  simp [guardedBy, heldAfter]

/-- Every operation of the package variant keeps `vol_mutex` around its body. -/
theorem call_locked_package (op : Op) (st : World × List LockEvent)
    (h : Guarded Mutex.vol_mutex st.2 false) :
    Guarded Mutex.vol_mutex (call_locked Variant.package op st).2.2 false := by
  rw [call_locked_trace]
  exact guarded_bracket _ _ _ _ h

/-- An operation of the source variant runs under a mutex only if its caller
holds it. -/
theorem call_locked_source (m : Mutex) (op : Op) (st : World × List LockEvent)
    (h : Guarded m st.2 true) : Guarded m (call_locked Variant.source op st).2.2 true := by
  rw [call_locked_trace]
  exact guarded_body _ _ _ _ h

theorem button_switch_locked_package (sw : Int) (st : World × List LockEvent)
    (h : Guarded Mutex.vol_mutex st.2 false) :
    Guarded Mutex.vol_mutex (button_switch_locked Variant.package sw st).2 false := by
  unfold button_switch_locked
  split
  · exact call_locked_package _ _ h
  · split
    · exact call_locked_package _ _ h
    · split
      · exact call_locked_package _ _ h
      · exact h

theorem button_switch_locked_source (m : Mutex) (sw : Int) (st : World × List LockEvent)
    (h : Guarded m st.2 true) :
    Guarded m (button_switch_locked Variant.source sw st).2 true := by
  unfold button_switch_locked
  split
  · exact call_locked_source m _ _ h
  · split
    · exact call_locked_source m _ _ h
    · split
      · exact call_locked_source m _ _ h
      · exact h

theorem process_button_event_locked_source (m : Mutex) (rd : Int)
    (st : World × List LockEvent) (h : Guarded m st.2 true) :
    Guarded m (process_button_event_locked Variant.source rd st).2 true := by
  unfold process_button_event_locked
  simp only []
  split
  · exact h
  · exact button_switch_locked_source m _ _ h

theorem gpio_alert_callback_package (alerts : List Alert) :
    ∀ st : World × List LockEvent, Guarded Mutex.vol_mutex st.2 false →
      Guarded Mutex.vol_mutex (gpio_alert_callback Variant.package alerts st).2 false := by
  induction alerts with
  | nil =>
    intro st h
    exact h
  | cons a rest ih =>
    intro st h
    unfold gpio_alert_callback
    simp only []
    split
    · exact ih _ (button_switch_locked_package _ _ h)
    · exact ih _ h

theorem gpio_alert_callback_source (alerts : List Alert) :
    ∀ st : World × List LockEvent, Guarded Mutex.button_mutex st.2 false →
      Guarded Mutex.button_mutex (gpio_alert_callback Variant.source alerts st).2 false := by
  induction alerts with
  | nil =>
    intro st h
    exact h
  | cons a rest ih =>
    intro st h
    unfold gpio_alert_callback
    simp only []
    split
    · apply ih
      apply guarded_unlock _ _ true
      apply process_button_event_locked_source
      exact guarded_lock _ _ _ h
    · exact ih _ h

theorem process_hw_input_locked_package (string : List Char) (st : World × List LockEvent)
    (h : Guarded Mutex.vol_mutex st.2 false) :
    Option.all (fun r => guardedBy Mutex.vol_mutex r.2.2 false)
      (process_hw_input_locked Variant.package string st) = true := by
  unfold process_hw_input_locked
  cases actionOf string with
  | none => rfl
  | some action =>
    simp only []
    split
    · exact (call_locked_package _ _ h).1
    · split
      · exact h.1
      · split
        · exact (call_locked_package _ _ h).1
        · split
          · exact h.1
          · exact h.1

theorem process_IR_input_locked_package (code : List Char) (st : World × List LockEvent)
    (h : Guarded Mutex.vol_mutex st.2 false) :
    Guarded Mutex.vol_mutex (process_IR_input_locked Variant.package code st).2 false := by
  unfold process_IR_input_locked
  simp only []
  split
  · exact call_locked_package _ _ h
  · split
    · exact call_locked_package _ _ h
    · split
      · exact call_locked_package _ _ h
      · exact h

/-! ## The claims -/

/-- C1: for every v with 0 <= v <= 63, in both variants and from every prior
state (whatever the bus and the file system answer), `ra_vol_set(v)` returns 0
and `ra_vol_get()` called right after returns v. -/
theorem C1_vol_set_then_get (var : Variant) (s : World) (v : Int) (h0 : 0 ≤ v) (h1 : v ≤ 63) :
    (ra_vol_set var v s).1 = 0 ∧ ra_vol_get (ra_vol_set var v s).2 = v := by
  obtain ⟨hr, hv, -, -, -⟩ := ra_vol_set_ok var v s h0 h1
  refine ⟨hr, ?_⟩
  unfold ra_vol_get
  rw [hv, toInt32_small _ (by omega)]
  exact Int.toNat_of_nonneg h0

/-- Witness of C1 at v = 10 on the muted sample state of volume 31. -/
theorem C1_vol_set_then_get_witness :
    (ra_vol_set Variant.source 10 sampleOk).1 = 0 ∧
    ra_vol_get (ra_vol_set Variant.source 10 sampleOk).2 = 10 :=
  C1_vol_set_then_get Variant.source sampleOk 10 (by decide) (by decide)

/-- C2: for every integer v outside 0..63 (in particular every C int below 0 or
above 63), in both variants and from every prior state, `ra_vol_set(v)` returns
1 and hands back the state it was given: volume, mute flag and persistence file
are unchanged, and nothing is appended to the trace (no relay write, no bus
write, no save). -/
theorem C2_vol_set_out_of_range (var : Variant) (s : World) (v : Int) (h : v < 0 ∨ 63 < v) :
    (ra_vol_set var v s).1 = 1 ∧
    (ra_vol_set var v s).2.vol = s.vol ∧
    (ra_vol_set var v s).2.mute = s.mute ∧
    (ra_vol_set var v s).2.file = s.file ∧
    emitted s (ra_vol_set var v s).2 = [] ∧
    (ra_vol_set var v s).2 = s := by
  rw [ra_vol_set_bad var v s h]
  refine ⟨rfl, rfl, rfl, rfl, ?_, rfl⟩
  exact emitted_append s s [] (by simp)

/-- Witness of C2 at v = 64 on the muted sample state of volume 31. -/
theorem C2_vol_set_out_of_range_witness :
    (ra_vol_set Variant.package 64 sampleOk).1 = 1 ∧
    (ra_vol_set Variant.package 64 sampleOk).2.vol = 31 ∧
    (ra_vol_set Variant.package 64 sampleOk).2.mute = 1 ∧
    emitted sampleOk (ra_vol_set Variant.package 64 sampleOk).2 = [] := by
  have h := C2_vol_set_out_of_range Variant.package sampleOk 64 (Or.inr (by decide))
  exact ⟨h.1, h.2.1, h.2.2.1, h.2.2.2.2.1⟩

/-- C3: in both variants, from every prior state and whatever the prior mute
flag, a call of `ra_vol_set`, `ra_vol_inc` or `ra_vol_dec` that returns 0 leaves
the mute flag 0, so `ra_get_mute()` returns 0 afterwards. -/
theorem C3_volume_change_clears_mute (var : Variant) (s : World) (v : Int) :
    ((ra_vol_set var v s).1 = 0 →
      (ra_vol_set var v s).2.mute = 0 ∧ ra_get_mute (ra_vol_set var v s).2 = 0) ∧
    ((ra_vol_inc var s).1 = 0 →
      (ra_vol_inc var s).2.mute = 0 ∧ ra_get_mute (ra_vol_inc var s).2 = 0) ∧
    ((ra_vol_dec var s).1 = 0 →
      (ra_vol_dec var s).2.mute = 0 ∧ ra_get_mute (ra_vol_dec var s).2 = 0) := by
  refine ⟨?_, ?_, ?_⟩
  · unfold ra_vol_set ra_get_mute
    split <;> simp
  · unfold ra_vol_inc ra_get_mute
    split <;> simp
  · unfold ra_vol_dec ra_get_mute
    split <;> simp

/-- Witness of C3: on the muted sample state the three calls succeed and leave
`ra_get_mute()` at 0. -/
theorem C3_volume_change_clears_mute_witness :
    sampleOk.mute = 1 ∧
    ra_get_mute (ra_vol_set Variant.source 10 sampleOk).2 = 0 ∧
    ra_get_mute (ra_vol_inc Variant.source sampleOk).2 = 0 ∧
    ra_get_mute (ra_vol_dec Variant.source sampleOk).2 = 0 :=
  ⟨rfl,
   ((C3_volume_change_clears_mute Variant.source sampleOk 10).1 (by decide)).2,
   ((C3_volume_change_clears_mute Variant.source sampleOk 10).2.1 (by decide)).2,
   ((C3_volume_change_clears_mute Variant.source sampleOk 10).2.2 (by decide)).2⟩

/-- C4: in both variants `ra_vol_inc` returns 1 and hands back the state
unchanged when the volume is 63; for every volume v < 63 it returns 0, sets the
volume to v+1, issues one relay write, of the unmuted word 65535 - (v+1), and
then one save, of v+1 (the file holds the hexadecimal text of v+1 when it can be
opened). `ra_vol_dec` returns 1 and hands back the state unchanged when the
volume is 0; for every unsigned volume v > 0 it returns 0, sets the volume to
v-1, issues one relay write, of the unmuted word of v-1, and then one save, of
v-1. -/
theorem C4_inc_dec (var : Variant) (s : World) :
    (s.vol = 63 → ra_vol_inc var s = (1, s)) ∧
    (s.vol < 63 →
      (ra_vol_inc var s).1 = 0 ∧ (ra_vol_inc var s).2.vol = s.vol + 1 ∧
      emitted s (ra_vol_inc var s).2
        = relaySeq var s (65535 - (s.vol + 1)) ++ [Event.save ((s.vol + 1 : Nat) : Int)] ∧
      relayWords (emitted s (ra_vol_inc var s).2) = [65535 - (s.vol + 1)] ∧
      savedValues (emitted s (ra_vol_inc var s).2) = [((s.vol + 1 : Nat) : Int)] ∧
      (s.fopenW s.fopenCalls = true →
        (ra_vol_inc var s).2.file = some (Nat.toDigits 16 (s.vol + 1)))) ∧
    (s.vol = 0 → ra_vol_dec var s = (1, s)) ∧
    (0 < s.vol → s.vol < 4294967296 →
      (ra_vol_dec var s).1 = 0 ∧ (ra_vol_dec var s).2.vol = s.vol - 1 ∧
      emitted s (ra_vol_dec var s).2
        = relaySeq var s (unmutedWord (s.vol - 1)) ++ [Event.save (toInt32 (s.vol - 1))] ∧
      relayWords (emitted s (ra_vol_dec var s).2) = [unmutedWord (s.vol - 1)] ∧
      savedValues (emitted s (ra_vol_dec var s).2) = [toInt32 (s.vol - 1)] ∧
      (s.vol ≤ 64 → unmutedWord (s.vol - 1) = 65535 - (s.vol - 1) ∧
        toInt32 (s.vol - 1) = ((s.vol - 1 : Nat) : Int)) ∧
      (s.fopenW s.fopenCalls = true →
        (ra_vol_dec var s).2.file = some (Nat.toDigits 16 (s.vol - 1)))) := by
  refine ⟨?_, ?_, ?_, ?_⟩
  · intro h
    exact ra_vol_inc_top var s (by omega)
  · intro h
    obtain ⟨hr, hv, -, ht, hf⟩ := ra_vol_inc_ok var s h
    rw [unmutedWord_le63 _ (by omega)] at ht
    have he := emitted_append s (ra_vol_inc var s).2 _ (by rw [ht, List.append_assoc])
    refine ⟨hr, hv, he, ?_, ?_, ?_⟩
    · rw [he, relayWords_append, relayWords_relaySeq]; rfl
    · rw [he, savedValues_append, savedValues_relaySeq]; rfl
    · intro hopen
      rw [hf, if_pos hopen, fprintf_x, toUInt32_natCast _ (by omega)]
  · intro h
    exact ra_vol_dec_bottom var s h
  · intro h hty
    obtain ⟨hr, hv, -, ht, hf⟩ := ra_vol_dec_ok var s h hty
    have he := emitted_append s (ra_vol_dec var s).2 _ (by rw [ht, List.append_assoc])
    refine ⟨hr, hv, he, ?_, ?_, ?_, ?_⟩
    · rw [he, relayWords_append, relayWords_relaySeq]; rfl
    · rw [he, savedValues_append, savedValues_relaySeq]; rfl
    · intro h64
      exact ⟨unmutedWord_le63 _ (by omega), toInt32_small _ (by omega)⟩
    · intro hopen
      rw [hf, if_pos hopen, fprintf_x, toUInt32_toInt32 _ (by omega)]

/-- Witness of C4: on the sample state (volume 31) both calls succeed and give
32 and 30; at volume 63 the increment and at volume 0 the decrement are
refused. -/
theorem C4_inc_dec_witness :
    (ra_vol_inc Variant.source sampleOk).2.vol = 32 ∧
    relayWords (emitted sampleOk (ra_vol_inc Variant.source sampleOk).2) = [65503] ∧
    (ra_vol_dec Variant.source sampleOk).2.vol = 30 ∧
    relayWords (emitted sampleOk (ra_vol_dec Variant.source sampleOk).2) = [unmutedWord 30] ∧
    ra_vol_inc Variant.source { sampleOk with vol := 63 } = (1, { sampleOk with vol := 63 }) ∧
    ra_vol_dec Variant.source { sampleOk with vol := 0 } = (1, { sampleOk with vol := 0 }) :=
  ⟨((C4_inc_dec Variant.source sampleOk).2.1 (by decide)).2.1,
   ((C4_inc_dec Variant.source sampleOk).2.1 (by decide)).2.2.2.1,
   ((C4_inc_dec Variant.source sampleOk).2.2.2 (by decide) (by decide)).2.1,
   ((C4_inc_dec Variant.source sampleOk).2.2.2 (by decide) (by decide)).2.2.2.1,
   (C4_inc_dec Variant.source { sampleOk with vol := 63 }).1 rfl,
   (C4_inc_dec Variant.source { sampleOk with vol := 0 }).2.2.1 rfl⟩

/-- C5, as stated, fails in its clause on values outside 0..63: a file holding
"100000010" holds the number 4294967312, which is outside 0..63, and a file
holding "-fffffff0" holds a negative number; both load as 16, not as 31,
because `fscanf "%x"` leaves only the low 32 bits in the `int`. -/
theorem C5_counterexample :
    hexrun "100000010".toList none = some 4294967312 ∧ ¬ (4294967312 ≤ 63) ∧
    fscanf_x "100000010".toList = some 16 ∧
    retriveVol (boot (some "100000010".toList) (fun _ => 0) (fun _ => true)) = 16 ∧
    retriveVol (boot (some "100000010".toList) (fun _ => 0) (fun _ => true)) ≠ 31 ∧
    hexrun "fffffff0".toList none = some 4294967280 ∧
    fscanf_x "-fffffff0".toList = some 16 ∧
    retriveVol (boot (some "-fffffff0".toList) (fun _ => 0) (fun _ => true)) = 16 := by
  decide

/-- C5 amended: range invariant. In both variants, for every content of the
persistence file and whatever the bus and the file system answer: the volume
returned by `retriveVol` lies in 0..63; it is 31 when the file cannot be
opened, when `fscanf "%x"` converts nothing (in particular when the file is
empty or its first character is neither white space, a sign nor a hexadecimal
digit), and when the `int` that `fscanf` stores is outside 0..63. For a file
made of hexadecimal digits only, writing the number n: below 2^64 the volume
is the low 32 bits of n when these are in 0..63 and 31 otherwise, from 2^64 on
it is 31; so a number outside 0..63 whose low 32 bits are in 0..63 loads as
those bits. And in the state reached from start-up by any finite sequence of
`ra_vol_set` (any integer), `ra_vol_inc`, `ra_vol_dec`, `ra_set_mute` (any
integer) and `ra_mute` calls the volume is in 0..63 and the mute flag is 0 or
1. -/
theorem C5_range_invariant (var : Variant) (file : Option (List Char))
    (i2cRet : Nat → Int) (fopenW : Nat → Bool) (ops : List Op) :
    (0 ≤ retriveVol (boot file i2cRet fopenW) ∧ retriveVol (boot file i2cRet fopenW) ≤ 63) ∧
    (file = none → retriveVol (boot file i2cRet fopenW) = 31) ∧
    (∀ text, file = some text → fscanf_x text = none →
      retriveVol (boot file i2cRet fopenW) = 31) ∧
    (file = some [] → retriveVol (boot file i2cRet fopenW) = 31) ∧
    (∀ c rest, file = some (c :: rest) → isspace c = false → c.toNat ≠ 45 → c.toNat ≠ 43 →
      hexval c = none → retriveVol (boot file i2cRet fopenW) = 31) ∧
    (∀ text d, file = some text → fscanf_x text = some d → (d < 0 ∨ 63 < d) →
      retriveVol (boot file i2cRet fopenW) = 31) ∧
    (∀ text n, file = some text → text ≠ [] → (∀ c ∈ text, hexval c ≠ none) →
      hexrun text none = some n →
      (n < 18446744073709551616 → n % 4294967296 ≤ 63 →
        retriveVol (boot file i2cRet fopenW) = ((n % 4294967296 : Nat) : Int)) ∧
      (n < 18446744073709551616 → 63 < n % 4294967296 →
        retriveVol (boot file i2cRet fopenW) = 31) ∧
      (18446744073709551616 ≤ n → retriveVol (boot file i2cRet fopenW) = 31)) ∧
    ((init_hardware var (boot file i2cRet fopenW)).vol : Int)
      = retriveVol (boot file i2cRet fopenW) ∧
    (run var ops (init_hardware var (boot file i2cRet fopenW))).vol ≤ 63 ∧
    ((run var ops (init_hardware var (boot file i2cRet fopenW))).mute = 0 ∨
     (run var ops (init_hardware var (boot file i2cRet fopenW))).mute = 1) := by
  have hnone : ∀ text, file = some text → fscanf_x text = none →
      retriveVol (boot file i2cRet fopenW) = 31 := by
    intro text hf hs
    simp [retriveVol, boot, hf, hs, DEFAULT_VOL]
  have hinit := init_hardware_inv var (boot file i2cRet fopenW) (Or.inl rfl)
  have hrun := run_inv var ops _ hinit.1
  refine ⟨retriveVol_range _, ?_, hnone, ?_, ?_, ?_, ?_, hinit.2, hrun.1, hrun.2⟩
  · intro hf
    simp [retriveVol, boot, hf, DEFAULT_VOL]
  · intro hf
    exact hnone [] hf (by decide)
  · intro c rest hf hsp hminus hplus hhex
    exact hnone (c :: rest) hf (fscanf_x_no_digit c rest hsp hminus hplus hhex)
  · intro text d hf hs hd
    have hc : d < 0 ∨ d > 63 := hd
    simp [retriveVol, boot, hf, hs, DEFAULT_VOL, hc]
  · intro text n hf hne hall hn
    have hfile : (boot file i2cRet fopenW).file = some text := hf
    exact retriveVol_plain (boot file i2cRet fopenW) text n hfile hne hall hn

/-- Witness of the amended C5: a file holding "zz" and a file holding "ff"
(255) load as 31, a file holding "100000010" loads as 16, a file holding
"10000000000000010" (2^64 + 16) loads as 31, and out-of-range requests followed
by 40 increments stay within range. -/
theorem C5_range_invariant_witness :
    retriveVol (boot (some "zz".toList) (fun _ => 0) (fun _ => true)) = 31 ∧
    retriveVol (boot (some "ff".toList) (fun _ => 0) (fun _ => true)) = 31 ∧
    retriveVol (boot (some "100000010".toList) (fun _ => 0) (fun _ => true))
      = ((4294967312 % 4294967296 : Nat) : Int) ∧
    retriveVol (boot (some "10000000000000010".toList) (fun _ => 0) (fun _ => true)) = 31 ∧
    (run Variant.source (Op.vol_set 64 :: Op.set_mute 2 :: List.replicate 40 Op.vol_inc)
      (init_hardware Variant.source
        (boot (some "ff".toList) (fun _ => 0) (fun _ => true)))).vol ≤ 63 :=
  ⟨(C5_range_invariant Variant.source (some "zz".toList) (fun _ => 0)
      (fun _ => true) []).2.2.2.2.1 (Char.ofNat 122) [Char.ofNat 122] rfl (by decide)
      (by decide) (by decide) (by decide),
   (C5_range_invariant Variant.source (some "ff".toList) (fun _ => 0)
      (fun _ => true) []).2.2.2.2.2.1 "ff".toList 255 rfl (by decide)
      (Or.inr (by decide)),
   ((C5_range_invariant Variant.source (some "100000010".toList) (fun _ => 0)
      (fun _ => true) []).2.2.2.2.2.2.1 "100000010".toList 4294967312 rfl (by decide)
      (by decide) (by decide)).1 (by decide) (by decide),
   ((C5_range_invariant Variant.source (some "10000000000000010".toList) (fun _ => 0)
      (fun _ => true) []).2.2.2.2.2.2.1 "10000000000000010".toList 18446744073709551632 rfl
      (by decide) (by decide) (by decide)).2.2 (by decide),
   (C5_range_invariant Variant.source (some "ff".toList) (fun _ => 0)
      (fun _ => true)
      (Op.vol_set 64 :: Op.set_mute 2 :: List.replicate 40 Op.vol_inc)).2.2.2.2.2.2.2.2.1⟩

/-- C6, as stated, fails: on the muted state of volume 31 whose file holds
"1f", with every bus write failing, `ra_vol_set(10)` of the source variant
makes one bus write, which fails, and still returns 0, stores volume 10, clears
the mute flag and replaces the file by "a". -/
theorem C6_counterexample :
    sampleBusDown.vol = 31 ∧ sampleBusDown.mute = 1 ∧ sampleBusDown.file = some "1f".toList ∧
    emitted sampleBusDown (ra_vol_set Variant.source 10 sampleBusDown).2
      = [Event.relay 65525, Event.bus 63 (-82), Event.save 10] ∧
    (ra_vol_set Variant.source 10 sampleBusDown).1 = 0 ∧
    (ra_vol_set Variant.source 10 sampleBusDown).2.vol = 10 ∧
    (ra_vol_set Variant.source 10 sampleBusDown).2.mute = 0 ∧
    (ra_vol_set Variant.source 10 sampleBusDown).2.file = some "a".toList ∧
    ¬ ((ra_vol_set Variant.source 10 sampleBusDown).2.vol = sampleBusDown.vol ∧
       (ra_vol_set Variant.source 10 sampleBusDown).2.mute = sampleBusDown.mute ∧
       (ra_vol_set Variant.source 10 sampleBusDown).2.file = sampleBusDown.file) := by
  decide

/-- C6 amended: a failing relay bus write does not undo or stop a mutating
operation. When the priming write of `ra_vol_set(v)`, v in 0..63, fails, the
call still returns 0, the volume is v, the mute flag is 0, `saveVol(v)` is
called and the file holds the hexadecimal text of v if it can be opened; and
for each of the five mutating operations the volume, the mute flag and the file
after the call are the same whatever the bus writes return. -/
theorem C6_bus_failure_still_commits (var : Variant) (s : World) (v : Int)
    (h0 : 0 ≤ v) (h1 : v ≤ 63) (hfail : s.i2cRet s.i2cCalls < 0) :
    (ra_vol_set var v s).1 = 0 ∧
    ((ra_vol_set var v s).2.vol : Int) = v ∧
    (ra_vol_set var v s).2.mute = 0 ∧
    savedValues (emitted s (ra_vol_set var v s).2) = [v] ∧
    (s.fopenW s.fopenCalls = true → (ra_vol_set var v s).2.file = some (fprintf_x v)) ∧
    (var = Variant.source →
      busValues (emitted s (ra_vol_set var v s).2) = [63]) ∧
    (∀ (op : Op) (rets : Nat → Int),
      (step var op { s with i2cRet := rets }).vol = (step var op s).vol ∧
      (step var op { s with i2cRet := rets }).mute = (step var op s).mute ∧
      (step var op { s with i2cRet := rets }).file = (step var op s).file) := by
  obtain ⟨hr, hv, hm, ht, hf⟩ := ra_vol_set_ok var v s h0 h1
  have he := emitted_append s (ra_vol_set var v s).2 _ (by rw [ht, List.append_assoc])
  refine ⟨hr, ?_, hm, ?_, ?_, ?_, fun op rets => step_bus_independent var op s rets⟩
  · rw [hv]
    exact Int.toNat_of_nonneg h0
  · rw [he, savedValues_append, savedValues_relaySeq]
    rfl
  · intro hopen
    rw [hf, if_pos hopen]
  · intro hvar
    rw [he, busValues_append, hvar]
    simp [relaySeq, busValues, hfail]

/-- Witness of the amended C6 on the sample state with the bus down. -/
theorem C6_bus_failure_still_commits_witness :
    (ra_vol_set Variant.source 10 sampleBusDown).1 = 0 ∧
    ((ra_vol_set Variant.source 10 sampleBusDown).2.vol : Int) = 10 ∧
    (ra_vol_set Variant.source 10 sampleBusDown).2.mute = 0 ∧
    savedValues (emitted sampleBusDown (ra_vol_set Variant.source 10 sampleBusDown).2) = [10] :=
  have h := C6_bus_failure_still_commits Variant.source sampleBusDown 10
    (by decide) (by decide) (by decide)
  ⟨h.1, h.2.1, h.2.2.1, h.2.2.2.1⟩

/-- C7, as stated, fails: from the reachable state of volume 31 (muted, bus
working) `ra_vol_set(10)` hands the values 63 and 65525 to `lgI2cWriteByte`;
65525 = 0xFFF5 is not in 0..255. -/
theorem C7_counterexample :
    sampleOk.vol ≤ 63 ∧ sampleOk.mute = 1 ∧
    busValues (emitted sampleOk (step Variant.source (Op.vol_set 10) sampleOk)) = [63, 65525] ∧
    busValues (emitted sampleOk (step Variant.package (Op.vol_set 10) sampleOk)) = [63, 65525] ∧
    ¬ (∀ b ∈ busValues (emitted sampleOk (step Variant.source (Op.vol_set 10) sampleOk)),
        b ≤ 255) := by
  decide

/-- C7 amended: for every state with volume in 0..63 and mute flag 0 or 1, and
every mutating operation, each value handed to `lgI2cWriteByte` is an unsigned
short, below 65536, and is one of: the priming value 63, the word 0, the
toggle-into-mute word 191 - v, or the unmuted word 65535 - v, where v is the
volume after the call. The first three are bytes; the unmuted word is not, only
its low 8 bits, 255 - v, are. -/
theorem C7_bus_values_unsigned_short (var : Variant) (op : Op) (s : World)
    (hv : s.vol ≤ 63) (hm : s.mute = 0 ∨ s.mute = 1) :
    ∀ b ∈ busValues (emitted s (step var op s)),
      b < 65536 ∧
      (b = 63 ∨ b = 0 ∨ b = 191 - (step var op s).vol ∨
        (b = 65535 - (step var op s).vol ∧ 255 < b ∧ b % 256 = 255 - (step var op s).vol)) := by
  intro b hb
  have hinv : Inv (step var op s) := step_inv var op s ⟨hv, hm⟩
  have hv2 : (step var op s).vol ≤ 63 := hinv.1
  rcases step_bus_values var op s hv hm b hb with h | h | h | h
  · exact ⟨by omega, Or.inl h⟩
  · exact ⟨by omega, Or.inr (Or.inl h)⟩
  · exact ⟨by omega, Or.inr (Or.inr (Or.inl h))⟩
  · exact ⟨by omega, Or.inr (Or.inr (Or.inr ⟨h, by omega, by omega⟩))⟩

/-- Witness of the amended C7: the target word of `ra_vol_set(10)` on the
sample state is below 65536 and is 63, 0, 191 - 10 or 65535 - 10. -/
theorem C7_bus_values_unsigned_short_witness :
    65525 < 65536 ∧
      (65525 = 63 ∨ 65525 = 0 ∨
        65525 = 191 - (step Variant.source (Op.vol_set 10) sampleOk).vol ∨
        (65525 = 65535 - (step Variant.source (Op.vol_set 10) sampleOk).vol ∧ 255 < 65525 ∧
          65525 % 256 = 255 - (step Variant.source (Op.vol_set 10) sampleOk).vol)) :=
  C7_bus_values_unsigned_short Variant.source (Op.vol_set 10) sampleOk (by decide)
    (Or.inr rfl) 65525 (by decide)

/-- C8: in both variants, for every unsigned short word d, when the priming
write succeeds (returns a non-negative code), `ra_write(d)` appends exactly:
its entry, the bus write of 0x3f, the delay of 600 microseconds, the bus write
of d. So exactly two values reach the relay device, 0x3f first and d second.
The outcome of the second write plays no part. -/
theorem C8_ra_write_sequence (var : Variant) (s : World) (d : Nat) (hd : d < 65536)
    (hprime : 0 ≤ s.i2cRet s.i2cCalls) :
    emitted s (ra_write var d s)
      = [Event.relay d, Event.bus 0x3f (s.i2cRet s.i2cCalls), Event.delay 600,
         Event.bus d (s.i2cRet (s.i2cCalls + 1))] ∧
    busValues (emitted s (ra_write var d s)) = [0x3f, d] := by
  have hmod : d % 65536 = d := Nat.mod_eq_of_lt hd
  have hnot : ¬ (s.i2cRet s.i2cCalls < 0) := by omega
  have ht := ra_write_trace var d s
  rw [hmod] at ht
  have he := emitted_append s (ra_write var d s) _ ht
  have hseq : relaySeq var s d
      = [Event.relay d, Event.bus 0x3f (s.i2cRet s.i2cCalls), Event.delay 600,
         Event.bus d (s.i2cRet (s.i2cCalls + 1))] := by
    simp [relaySeq, hnot]
  rw [he, hseq]
  exact ⟨rfl, rfl⟩

/-- Witness of C8 for the word 0x1234 on the sample state. -/
theorem C8_ra_write_sequence_witness :
    busValues (emitted sampleOk (ra_write Variant.source 0x1234 sampleOk)) = [0x3f, 0x1234] :=
  (C8_ra_write_sequence Variant.source sampleOk 0x1234 (by decide) (by decide)).2

/-- C9: in both variants, for every integer f other than 0 and 1,
`ra_set_mute(f)` returns 1 and hands back the state unchanged, nothing being
appended to the trace; for f = 0 or f = 1 it returns 0, sets the mute flag to f,
leaves volume and file unchanged, calls `saveVol` never and `ra_write` exactly
once, with the word 0 when f = 1 and with the unmuted word of the current
volume, `(~vol) | 0x40`, when f = 0 (65535 - vol for a volume in 0..63). -/
theorem C9_set_mute (var : Variant) (s : World) (f : Int) :
    (f ≠ 0 ∧ f ≠ 1 →
      (ra_set_mute var f s).1 = 1 ∧ (ra_set_mute var f s).2 = s ∧
      emitted s (ra_set_mute var f s).2 = []) ∧
    (f = 0 ∨ f = 1 →
      (ra_set_mute var f s).1 = 0 ∧
      ((ra_set_mute var f s).2.mute : Int) = f ∧
      (ra_set_mute var f s).2.vol = s.vol ∧
      (ra_set_mute var f s).2.file = s.file ∧
      savedValues (emitted s (ra_set_mute var f s).2) = [] ∧
      relayWords (emitted s (ra_set_mute var f s).2)
        = [if f = 1 then 0 else ((4294967295 - s.vol) ||| 0x40) % 65536] ∧
      (s.vol ≤ 63 → ((4294967295 - s.vol) ||| 0x40) % 65536 = 65535 - s.vol)) := by
  constructor
  · intro h
    rw [ra_set_mute_bad var f s h]
    exact ⟨rfl, rfl, emitted_append s s [] (by simp)⟩
  · intro h
    rcases h with h | h
    · subst h
      obtain ⟨hr, hmu, hvo, hfi, ht⟩ := ra_set_mute_off var s
      have he := emitted_append s _ _ ht
      refine ⟨hr, by rw [hmu]; rfl, hvo, hfi, ?_, ?_, ?_⟩
      · rw [he, savedValues_relaySeq]
      · rw [he, relayWords_relaySeq]
        rfl
      · intro hv
        exact unmutedWord_le63 s.vol hv
    · subst h
      obtain ⟨hr, hmu, hvo, hfi, ht⟩ := ra_set_mute_on var s
      have he := emitted_append s _ _ ht
      refine ⟨hr, by rw [hmu]; rfl, hvo, hfi, ?_, ?_, ?_⟩
      · rw [he, savedValues_relaySeq]
      · rw [he, relayWords_relaySeq]
        rfl
      · intro hv
        exact unmutedWord_le63 s.vol hv

/-- Witness of C9 on the sample state (volume 31, muted): 2 is refused, 1 writes
the word 0, 0 writes the word 65504. -/
theorem C9_set_mute_witness :
    (ra_set_mute Variant.source 2 sampleOk).1 = 1 ∧
    relayWords (emitted sampleOk (ra_set_mute Variant.source 1 sampleOk).2) = [0] ∧
    relayWords (emitted sampleOk (ra_set_mute Variant.source 0 sampleOk).2)
      = [((4294967295 - sampleOk.vol) ||| 0x40) % 65536] ∧
    ((4294967295 - sampleOk.vol) ||| 0x40) % 65536 = 65535 - sampleOk.vol :=
  ⟨((C9_set_mute Variant.source sampleOk 2).1 ⟨by decide, by decide⟩).1,
   ((C9_set_mute Variant.source sampleOk 1).2 (Or.inr rfl)).2.2.2.2.2.1,
   ((C9_set_mute Variant.source sampleOk 0).2 (Or.inl rfl)).2.2.2.2.2.1,
   ((C9_set_mute Variant.source sampleOk 0).2 (Or.inl rfl)).2.2.2.2.2.2 (by decide)⟩

/-- C10: in both variants, for every state whose mute flag is 0 or 1, `ra_mute`
(`ra_mute_toggle`) turns the flag into 1 - flag and leaves the volume
unchanged; applied twice it gives back the original `ra_get_mute()` and
`ra_vol_get()`. -/
theorem C10_toggle_twice (var : Variant) (s : World) (hm : s.mute = 0 ∨ s.mute = 1) :
    (ra_mute var s).mute = 1 - s.mute ∧
    (ra_mute var s).vol = s.vol ∧
    ra_get_mute (ra_mute var (ra_mute var s)) = ra_get_mute s ∧
    ra_vol_get (ra_mute var (ra_mute var s)) = ra_vol_get s := by
  unfold ra_get_mute ra_vol_get
  rcases hm with hm | hm
  · obtain ⟨h1, h2, -, -⟩ := ra_mute_from0 var s hm
    obtain ⟨h3, h4, -, -⟩ := ra_mute_from1 var (ra_mute var s) h1
    refine ⟨by rw [h1, hm], h2, by rw [h3, hm], by rw [h4, h2]⟩
  · obtain ⟨h1, h2, -, -⟩ := ra_mute_from1 var s hm
    obtain ⟨h3, h4, -, -⟩ := ra_mute_from0 var (ra_mute var s) h1
    refine ⟨by rw [h1, hm], h2, by rw [h3, hm], by rw [h4, h2]⟩

/-- Witness of C10 on the sample state (muted, volume 31). -/
theorem C10_toggle_twice_witness :
    (ra_mute Variant.package sampleOk).mute = 0 ∧
    ra_get_mute (ra_mute Variant.package (ra_mute Variant.package sampleOk)) = 1 ∧
    ra_vol_get (ra_mute Variant.package (ra_mute Variant.package sampleOk)) = 31 :=
  ⟨(C10_toggle_twice Variant.package sampleOk (Or.inr rfl)).1,
   (C10_toggle_twice Variant.package sampleOk (Or.inr rfl)).2.2.1,
   (C10_toggle_twice Variant.package sampleOk (Or.inr rfl)).2.2.2⟩

/-- C11: set-then-get over the control channel, in both variants and from every
state. For v in 0..63 the command "SET_VOLUME=" followed by the decimal numeral
of v is answered "SUCCESS" and "GET_VOLUME" right after is answered with the
decimal numeral of v; for f in {0,1} "SET_MUTE=f" is answered "SUCCESS" and
"GET_MUTE" right after is answered with the numeral of f; in the start-up state
"GET_MUTE" is answered "0"; and the two GET commands hand back the state they
were given. -/
theorem C11_set_then_get (var : Variant) (s : World) :
    (∀ v : Int, 0 ≤ v → v ≤ 63 →
      process_hw_input var ("SET_VOLUME=".toList ++ sprintf_d v) s
        = some ("SUCCESS".toList, (ra_vol_set var v s).2) ∧
      process_hw_input var "GET_VOLUME".toList (ra_vol_set var v s).2
        = some (sprintf_d v, (ra_vol_set var v s).2)) ∧
    (∀ f : Int, f = 0 ∨ f = 1 →
      process_hw_input var ("SET_MUTE=".toList ++ sprintf_d f) s
        = some ("SUCCESS".toList, (ra_set_mute var f s).2) ∧
      process_hw_input var "GET_MUTE".toList (ra_set_mute var f s).2
        = some (sprintf_d f, (ra_set_mute var f s).2)) ∧
    (∀ (file : Option (List Char)) (i2cRet : Nat → Int) (fopenW : Nat → Bool),
      process_hw_input var "GET_MUTE".toList (init_hardware var (boot file i2cRet fopenW))
        = some ("0".toList, init_hardware var (boot file i2cRet fopenW))) ∧
    process_hw_input var "GET_VOLUME".toList s = some (sprintf_d (ra_vol_get s), s) ∧
    process_hw_input var "GET_MUTE".toList s = some (sprintf_d (ra_get_mute s), s) := by
  refine ⟨?_, ?_, ?_, get_volume_command var s, get_mute_command var s⟩
  · intro v h0 h1
    obtain ⟨hr, hv, -, -, -⟩ := ra_vol_set_ok var v s h0 h1
    constructor
    · rw [set_volume_command var v s (by omega) (by omega), hr]
      rfl
    · rw [get_volume_command]
      have hget : ra_vol_get (ra_vol_set var v s).2 = v := by
        unfold ra_vol_get
        rw [hv, toInt32_small _ (by omega)]
        exact Int.toNat_of_nonneg h0
      rw [hget]
  · intro f hf
    have hrange : -2147483648 ≤ f ∧ f < 2147483648 := by omega
    have hres : (ra_set_mute var f s).1 = 0 ∧ ra_get_mute (ra_set_mute var f s).2 = f := by
      unfold ra_get_mute
      rcases hf with hf | hf
      · subst hf
        obtain ⟨hr, hmu, -, -, -⟩ := ra_set_mute_off var s
        exact ⟨hr, by rw [hmu]; rfl⟩
      · subst hf
        obtain ⟨hr, hmu, -, -, -⟩ := ra_set_mute_on var s
        exact ⟨hr, by rw [hmu]; rfl⟩
    constructor
    · rw [set_mute_command var f s hrange.1 hrange.2, hres.1]
      rfl
    · rw [get_mute_command, hres.2]
  · intro file i2cRet fopenW
    rw [get_mute_command]
    have hz : ra_get_mute (init_hardware var (boot file i2cRet fopenW)) = 0 := by
      unfold ra_get_mute
      rw [init_hardware_mute]
      rfl
    rw [hz]
    rfl

/-- Witness of C11: "SET_VOLUME=10" then "GET_VOLUME" on the sample state give
"SUCCESS" then "10"; "SET_MUTE=1" then "GET_MUTE" give "SUCCESS" then "1". -/
theorem C11_set_then_get_witness :
    process_hw_input Variant.source "SET_VOLUME=10".toList sampleOk
      = some ("SUCCESS".toList, (ra_vol_set Variant.source 10 sampleOk).2) ∧
    process_hw_input Variant.source "GET_VOLUME".toList (ra_vol_set Variant.source 10 sampleOk).2
      = some ("10".toList, (ra_vol_set Variant.source 10 sampleOk).2) ∧
    process_hw_input Variant.source "GET_MUTE".toList (ra_set_mute Variant.source 1 sampleOk).2
      = some ("1".toList, (ra_set_mute Variant.source 1 sampleOk).2) :=
  ⟨((C11_set_then_get Variant.source sampleOk).1 10 (by decide) (by decide)).1,
   ((C11_set_then_get Variant.source sampleOk).1 10 (by decide) (by decide)).2,
   ((C11_set_then_get Variant.source sampleOk).2.1 1 (Or.inr rfl)).2⟩

/-- C12: protocol errors, in both variants and from every state. A command
whose action token (the first token delimited by `=`) is none of SET_VOLUME,
GET_VOLUME, SET_MUTE, GET_MUTE; a command "SET_VOLUME=n" with n the decimal
numeral of a C int outside 0..63; and a command "SET_MUTE=n" with n the decimal
numeral of a C int other than 0 and 1: each is answered "FAILURE" and the state
handed back is the state given (same volume, mute flag, file and trace, hence
no relay write), so that "GET_VOLUME" right after reports the prior volume. -/
theorem C12_protocol_errors (var : Variant) (s : World) :
    (∀ string action : List Char, actionOf string = some action →
      action ≠ "SET_VOLUME".toList → action ≠ "GET_VOLUME".toList →
      action ≠ "SET_MUTE".toList → action ≠ "GET_MUTE".toList →
      process_hw_input var string s = some ("FAILURE".toList, s)) ∧
    (∀ n : Int, -2147483648 ≤ n → n < 2147483648 → (n < 0 ∨ 63 < n) →
      process_hw_input var ("SET_VOLUME=".toList ++ sprintf_d n) s
        = some ("FAILURE".toList, s)) ∧
    (∀ n : Int, -2147483648 ≤ n → n < 2147483648 → n ≠ 0 → n ≠ 1 →
      process_hw_input var ("SET_MUTE=".toList ++ sprintf_d n) s
        = some ("FAILURE".toList, s)) ∧
    emitted s s = [] ∧
    process_hw_input var "GET_VOLUME".toList s = some (sprintf_d (ra_vol_get s), s) := by
  refine ⟨?_, ?_, ?_, emitted_append s s [] (by simp), get_volume_command var s⟩
  · intro string action ha h1 h2 h3 h4
    exact other_action var string action s ha h1 h2 h3 h4
  · intro n h0 h1 hout
    rw [set_volume_command var n s h0 h1, ra_vol_set_bad var n s hout]
    rfl
  · intro n h0 h1 hn0 hn1
    rw [set_mute_command var n s h0 h1, ra_set_mute_bad var n s ⟨hn0, hn1⟩]
    rfl

/-- Witness of C12: "VOLUME_UP", "SET_VOLUME=70", "SET_VOLUME=-1" and
"SET_MUTE=2" are answered "FAILURE" on the sample state, which is handed back. -/
theorem C12_protocol_errors_witness :
    process_hw_input Variant.source "VOLUME_UP".toList sampleOk
      = some ("FAILURE".toList, sampleOk) ∧
    process_hw_input Variant.source "SET_VOLUME=70".toList sampleOk
      = some ("FAILURE".toList, sampleOk) ∧
    process_hw_input Variant.package "SET_VOLUME=-1".toList sampleOk
      = some ("FAILURE".toList, sampleOk) ∧
    process_hw_input Variant.package "SET_MUTE=2".toList sampleOk
      = some ("FAILURE".toList, sampleOk) := by
  have e1 : "SET_VOLUME=".toList ++ sprintf_d 70 = "SET_VOLUME=70".toList := by decide
  have e2 : "SET_VOLUME=".toList ++ sprintf_d (-1) = "SET_VOLUME=-1".toList := by decide
  have e3 : "SET_MUTE=".toList ++ sprintf_d 2 = "SET_MUTE=2".toList := by decide
  have h1 := (C12_protocol_errors Variant.source sampleOk).1 "VOLUME_UP".toList
    "VOLUME_UP".toList (by decide) (by decide) (by decide) (by decide) (by decide)
  have h2 := (C12_protocol_errors Variant.source sampleOk).2.1 70 (by decide) (by decide)
    (Or.inr (by decide))
  have h3 := (C12_protocol_errors Variant.package sampleOk).2.1 (-1) (by decide) (by decide)
    (Or.inl (by decide))
  have h4 := (C12_protocol_errors Variant.package sampleOk).2.2.1 2 (by decide) (by decide)
    (by decide) (by decide)
  rw [e1] at h2
  rw [e2] at h3
  rw [e3] at h4
  exact ⟨h1, h2, h3, h4⟩

/-- C13, as stated, fails for the package variant: on the muted sample state of
volume 31 the command "SET_VOLUME" alone is answered "FAILURE" and the volume
stays 31, and "SET_MUTE" alone is answered "FAILURE" and the mute flag stays 1;
the value used there is 70. -/
theorem C13_counterexample :
    valueOf Variant.package "SET_VOLUME".toList = 70 ∧
    (process_hw_input Variant.package "SET_VOLUME".toList sampleOk).map
        (fun r => (r.1, r.2.vol, r.2.mute)) = some ("FAILURE".toList, 31, 1) ∧
    (process_hw_input Variant.package "SET_MUTE".toList sampleOk).map
        (fun r => (r.1, r.2.vol, r.2.mute)) = some ("FAILURE".toList, 31, 1) := by
  decide

/-- C13 amended: a value token that is not numeric gives the value 0 in both
variants ("SET_VOLUME=abc" sets the volume to 0 and "SET_MUTE=abc" the mute flag
to 0, both answered "SUCCESS"). Without a value token the source variant uses 0
("SET_VOLUME" alone sets the volume to 0, "SET_MUTE" alone the mute flag to 0,
both answered "SUCCESS"), while the package variant uses 70, so that there
"SET_VOLUME" alone and "SET_MUTE" alone are answered "FAILURE" and the state is
handed back unchanged. -/
theorem C13_default_value (var : Variant) (s : World) :
    (valueOf var "SET_VOLUME=abc".toList = 0 ∧
     process_hw_input var "SET_VOLUME=abc".toList s
       = some ("SUCCESS".toList, (ra_vol_set var 0 s).2) ∧
     (ra_vol_set var 0 s).2.vol = 0) ∧
    (process_hw_input var "SET_MUTE=abc".toList s
       = some ("SUCCESS".toList, (ra_set_mute var 0 s).2) ∧
     (ra_set_mute var 0 s).2.mute = 0) ∧
    (∀ (c : Char) (rest : List Char), isspace c = false → c.toNat ≠ 45 → c.toNat ≠ 43 →
      ¬ (48 ≤ c.toNat ∧ c.toNat ≤ 57) → atoi (c :: rest) = 0) ∧
    (valueOf Variant.source "SET_VOLUME".toList = 0 ∧
     process_hw_input Variant.source "SET_VOLUME".toList s
       = some ("SUCCESS".toList, (ra_vol_set Variant.source 0 s).2) ∧
     (ra_vol_set Variant.source 0 s).2.vol = 0) ∧
    (valueOf Variant.source "SET_MUTE".toList = 0 ∧
     process_hw_input Variant.source "SET_MUTE".toList s
       = some ("SUCCESS".toList, (ra_set_mute Variant.source 0 s).2) ∧
     (ra_set_mute Variant.source 0 s).2.mute = 0) ∧
    (valueOf Variant.package "SET_VOLUME".toList = 70 ∧
     process_hw_input Variant.package "SET_VOLUME".toList s = some ("FAILURE".toList, s)) ∧
    (valueOf Variant.package "SET_MUTE".toList = 70 ∧
     process_hw_input Variant.package "SET_MUTE".toList s = some ("FAILURE".toList, s)) := by
  have hv0 : ∀ w : Variant, (ra_vol_set w 0 s).1 = 0 ∧ (ra_vol_set w 0 s).2.vol = 0 := by
    intro w
    obtain ⟨hr, hv, -, -, -⟩ := ra_vol_set_ok w 0 s (by decide) (by decide)
    exact ⟨hr, hv⟩
  have hm0 : ∀ w : Variant, (ra_set_mute w 0 s).1 = 0 ∧ (ra_set_mute w 0 s).2.mute = 0 := by
    intro w
    obtain ⟨hr, hmu, -, -, -⟩ := ra_set_mute_off w s
    exact ⟨hr, hmu⟩
  have habc : valueOf var "SET_VOLUME=abc".toList = 0 := by cases var <;> decide
  have habc2 : valueOf var "SET_MUTE=abc".toList = 0 := by cases var <;> decide
  refine ⟨⟨habc, ?_, (hv0 var).2⟩, ⟨?_, (hm0 var).2⟩, ?_, ⟨by decide, ?_, (hv0 _).2⟩,
    ⟨by decide, ?_, (hm0 _).2⟩, ⟨by decide, ?_⟩, ⟨by decide, ?_⟩⟩
  · rw [set_volume_action var _ s (by decide), habc, (hv0 var).1]
    rfl
  · rw [set_mute_action var _ s (by decide), habc2, (hm0 var).1]
    rfl
  · intro c rest hsp hminus hplus hdig
    exact atoi_non_numeric c rest hsp hminus hplus hdig
  · have hval : valueOf Variant.source "SET_VOLUME".toList = 0 := by decide
    rw [set_volume_action Variant.source _ s (by decide), hval, (hv0 _).1]
    rfl
  · have hval : valueOf Variant.source "SET_MUTE".toList = 0 := by decide
    rw [set_mute_action Variant.source _ s (by decide), hval, (hm0 _).1]
    rfl
  · have hval : valueOf Variant.package "SET_VOLUME".toList = 70 := by decide
    rw [set_volume_action Variant.package _ s (by decide), hval,
      ra_vol_set_bad Variant.package 70 s (Or.inr (by decide))]
    rfl
  · have hval : valueOf Variant.package "SET_MUTE".toList = 70 := by decide
    rw [set_mute_action Variant.package _ s (by decide), hval,
      ra_set_mute_bad Variant.package 70 s ⟨by decide, by decide⟩]
    rfl

/-- Witness of the amended C13: the letter x starts no number, so `atoi` gives 0
on "xyz". -/
theorem C13_default_value_witness : atoi "xyz".toList = 0 :=
  (C13_default_value Variant.source sampleOk).2.2.1 (Char.ofNat 120) "yz".toList
    (by decide) (by decide) (by decide) (by decide)

/-- C14 fails on the code: in both variants and in every state, for the
one-byte command "=", for "==" and for a buffer that begins with a NUL byte,
`strtok` finds no action token and `process_hw_input` calls `strcmp` on the NULL
pointer: it does not return a reply. -/
theorem C14_null_action_token (var : Variant) (s : World) :
    actionOf "=".toList = none ∧
    process_hw_input var "=".toList s = none ∧
    process_hw_input var "==".toList s = none ∧
    process_hw_input var (Char.ofNat 0 :: "GET_VOLUME".toList) s = none := by
  have h1 : actionOf "=".toList = none := by decide
  have h2 : actionOf "==".toList = none := by decide
  have h3 : actionOf (Char.ofNat 0 :: "GET_VOLUME".toList) = none := by decide
  refine ⟨h1, ?_, ?_, ?_⟩
  · rw [process_hw_input_unfold, h1]
  · rw [process_hw_input_unfold, h2]
  · rw [process_hw_input_unfold, h3]

/-- C15: persistence round trip. For every v in 0..63 and every state in which
the file can be opened for writing, `saveVol(v)` leaves the lowercase
hexadecimal text of v in the file, `fscanf "%x"` reads that text back as v, and
`retriveVol()` called next returns v. Both variants share this code. -/
theorem C15_save_then_load (s : World) (v : Int) (h0 : 0 ≤ v) (h1 : v ≤ 63)
    (hopen : s.fopenW s.fopenCalls = true) :
    (saveVol v s).file = some (Nat.toDigits 16 v.toNat) ∧
    fscanf_x (Nat.toDigits 16 v.toNat) = some v ∧
    retriveVol (saveVol v s) = v := by
  lift v to Nat using h0
  have hle : v ≤ 63 := by omega
  have hx : fprintf_x (v : Int) = Nat.toDigits 16 v := by
    unfold fprintf_x
    rw [toUInt32_natCast v (by omega)]
  refine ⟨?_, ?_, retriveVol_saveVol s v hle hopen⟩
  · rw [saveVol_file, if_pos hopen, hx]
    rfl
  · have h := fscanf_fprintf_x v hle
    rw [hx] at h
    exact h

/-- Witness of C15: saving 63 on the sample state writes "3f", which loads as 63. -/
theorem C15_save_then_load_witness :
    (saveVol 63 sampleOk).file = some "3f".toList ∧
    fscanf_x "3f".toList = some 63 ∧
    retriveVol (saveVol 63 sampleOk) = 63 :=
  C15_save_then_load sampleOk 63 (by decide) (by decide) rfl

/-- C16: button dispatch, in both variants, from every state and for every
result rd of the switch read. `process_button_event` is `ra_mute` when rd is
0xf7, `ra_vol_dec` when rd is 0xfd, `ra_vol_inc` when rd is 0xfe; for every
other rd, among them 0xfb and every negative (failed) read, it hands back the
state it was given: volume, mute flag, file and trace unchanged. -/
theorem C16_button_dispatch (var : Variant) (rd : Int) (s : World) :
    (rd = 0xf7 → process_button_event var rd s = ra_mute var s) ∧
    (rd = 0xfd → process_button_event var rd s = (ra_vol_dec var s).2) ∧
    (rd = 0xfe → process_button_event var rd s = (ra_vol_inc var s).2) ∧
    (rd ≠ 0xf7 → rd ≠ 0xfd → rd ≠ 0xfe →
      process_button_event var rd s = s ∧
      emitted s (process_button_event var rd s) = []) := by
  rw [process_button_event_spec]
  refine ⟨?_, ?_, ?_, ?_⟩
  · intro h
    subst h
    rfl
  · intro h
    subst h
    rfl
  · intro h
    subst h
    rfl
  · intro h1 h2 h3
    rw [button_switch_other var rd s h1 h2 h3]
    exact ⟨rfl, emitted_append s s [] (by simp)⟩

/-- Witness of C16 on the sample state (volume 31, muted): 0xfe raises the
volume to 32, 0xf7 unmutes, 0xfb and the failed read -82 change nothing. -/
theorem C16_button_dispatch_witness :
    (process_button_event Variant.source 0xfe sampleOk).vol = 32 ∧
    (process_button_event Variant.source 0xf7 sampleOk).mute = 0 ∧
    (process_button_event Variant.source 0xfd sampleOk).vol = 30 ∧
    process_button_event Variant.source 0xfb sampleOk = sampleOk ∧
    process_button_event Variant.package (-82) sampleOk = sampleOk := by
  have h1 := (C16_button_dispatch Variant.source 0xfe sampleOk).2.2.1 rfl
  have h2 := (C16_button_dispatch Variant.source 0xf7 sampleOk).1 rfl
  have h3 := (C16_button_dispatch Variant.source 0xfd sampleOk).2.1 rfl
  have h4 := ((C16_button_dispatch Variant.source 0xfb sampleOk).2.2.2
    (by decide) (by decide) (by decide)).1
  have h5 := ((C16_button_dispatch Variant.package (-82) sampleOk).2.2.2
    (by decide) (by decide) (by decide)).1
  rw [h1, h2, h3]
  exact ⟨by decide, by decide, by decide, h4, h5⟩

/-- C17, as stated, fails for the package variant: on the muted sample state of
volume 31 a line whose button is KEY_VOLUMEUP2 raises the volume to 32 and
writes the relay, and a line whose button is KEY_MUTE_LONG toggles the mute
flag. The source variant leaves the state alone on both lines. -/
theorem C17_counterexample :
    sampleOk.vol = 31 ∧ sampleOk.mute = 1 ∧
    (process_IR_input Variant.package
      "0000000000000001 00 KEY_VOLUMEUP2 myremote".toList sampleOk).vol = 32 ∧
    relayWords (emitted sampleOk (process_IR_input Variant.package
      "0000000000000001 00 KEY_VOLUMEUP2 myremote".toList sampleOk)) = [65503] ∧
    (process_IR_input Variant.package
      "0000000000000002 00 KEY_MUTE_LONG myremote".toList sampleOk).mute = 0 ∧
    (process_IR_input Variant.source
      "0000000000000001 00 KEY_VOLUMEUP2 myremote".toList sampleOk).vol = 31 ∧
    (process_IR_input Variant.source
      "0000000000000002 00 KEY_MUTE_LONG myremote".toList sampleOk).mute = 1 := by
  decide

/-- C17 amended. For a decoded line "code repeat button remote" whose first
three fields are non-empty and free of blanks: the source variant acts as
`ra_vol_inc` when the button is KEY_VOLUMEUP, as `ra_vol_dec` when it is
KEY_VOLUMEDOWN, as `ra_mute` when it is KEY_MUTE, and hands back the state
unchanged for every other button, whatever the remote name. The package variant
searches the whole line for the substrings KEY_VOLUMEUP, KEY_VOLUMEDOWN,
KEY_MUTE, in this order, and acts on the first one found: it acts as
`ra_vol_inc` when the button is KEY_VOLUMEUP, as `ra_vol_dec` when the button is
KEY_VOLUMEDOWN and the line does not contain KEY_VOLUMEUP, as the toggle when
the button is KEY_MUTE and the line contains neither of the other two, and it
hands back the state unchanged exactly when the line contains none of the
three. -/
theorem C17_ir_dispatch (s : World) (code rep button remote : List Char)
    (hc : code ≠ [] ∧ ∀ c ∈ code, c.toNat ≠ 32) (hr : rep ≠ [] ∧ ∀ c ∈ rep, c.toNat ≠ 32)
    (hb : button ≠ [] ∧ ∀ c ∈ button, c.toNat ≠ 32) :
    (button = "KEY_VOLUMEUP".toList →
      process_IR_input Variant.source
        (code ++ Char.ofNat 32 :: (rep ++ Char.ofNat 32 :: (button ++ Char.ofNat 32 :: remote))) s
        = (ra_vol_inc Variant.source s).2) ∧
    (button = "KEY_VOLUMEDOWN".toList →
      process_IR_input Variant.source
        (code ++ Char.ofNat 32 :: (rep ++ Char.ofNat 32 :: (button ++ Char.ofNat 32 :: remote))) s
        = (ra_vol_dec Variant.source s).2) ∧
    (button = "KEY_MUTE".toList →
      process_IR_input Variant.source
        (code ++ Char.ofNat 32 :: (rep ++ Char.ofNat 32 :: (button ++ Char.ofNat 32 :: remote))) s
        = ra_mute Variant.source s) ∧
    (button ≠ "KEY_VOLUMEUP".toList → button ≠ "KEY_VOLUMEDOWN".toList →
      button ≠ "KEY_MUTE".toList →
      process_IR_input Variant.source
        (code ++ Char.ofNat 32 :: (rep ++ Char.ofNat 32 :: (button ++ Char.ofNat 32 :: remote))) s
        = s) ∧
    (button = "KEY_VOLUMEUP".toList →
      process_IR_input Variant.package
        (code ++ Char.ofNat 32 :: (rep ++ Char.ofNat 32 :: (button ++ Char.ofNat 32 :: remote))) s
        = (ra_vol_inc Variant.package s).2) ∧
    (∀ line : List Char,
      (strstr line "KEY_VOLUMEUP".toList = true →
        process_IR_input Variant.package line s = (ra_vol_inc Variant.package s).2) ∧
      (strstr line "KEY_VOLUMEUP".toList = false →
        strstr line "KEY_VOLUMEDOWN".toList = true →
        process_IR_input Variant.package line s = (ra_vol_dec Variant.package s).2) ∧
      (strstr line "KEY_VOLUMEUP".toList = false →
        strstr line "KEY_VOLUMEDOWN".toList = false →
        strstr line "KEY_MUTE".toList = true →
        process_IR_input Variant.package line s = ra_mute Variant.package s) ∧
      (strstr line "KEY_VOLUMEUP".toList = false →
        strstr line "KEY_VOLUMEDOWN".toList = false →
        strstr line "KEY_MUTE".toList = false →
        process_IR_input Variant.package line s = s)) ∧
    (button = "KEY_VOLUMEDOWN".toList →
      strstr (code ++ Char.ofNat 32 :: (rep ++ Char.ofNat 32 :: (button ++ Char.ofNat 32 :: remote)))
        "KEY_VOLUMEDOWN".toList = true) ∧
    (button = "KEY_MUTE".toList →
      strstr (code ++ Char.ofNat 32 :: (rep ++ Char.ofNat 32 :: (button ++ Char.ofNat 32 :: remote)))
        "KEY_MUTE".toList = true) := by
  have h3 := third_token code rep button remote hc hr hb
  have hsrc := process_IR_input_source _ button s h3
  have hfound : strstr
      (code ++ Char.ofNat 32 :: (rep ++ Char.ofNat 32 :: (button ++ Char.ofNat 32 :: remote)))
      button = true := by
    have e : code ++ Char.ofNat 32 :: (rep ++ Char.ofNat 32 :: (button ++ Char.ofNat 32 :: remote))
        = (code ++ Char.ofNat 32 :: (rep ++ [Char.ofNat 32]))
            ++ (button ++ Char.ofNat 32 :: remote) := by
      simp
    rw [e]
    exact strstr_middle _ button _
  refine ⟨?_, ?_, ?_, ?_, ?_, ?_, ?_, ?_⟩
  · intro h
    rw [hsrc, if_pos h]
  · intro h
    have hne : button ≠ "KEY_VOLUMEUP".toList := by
      rw [h]
      decide
    rw [hsrc, if_neg hne, if_pos h]
  · intro h
    have hne1 : button ≠ "KEY_VOLUMEUP".toList := by
      rw [h]
      decide
    have hne2 : button ≠ "KEY_VOLUMEDOWN".toList := by
      rw [h]
      decide
    rw [hsrc, if_neg hne1, if_neg hne2, if_pos h]
  · intro h1 h2 h3
    rw [hsrc, if_neg h1, if_neg h2, if_neg h3]
  · intro h
    rw [h] at hfound
    rw [process_IR_input_package, h, if_pos hfound]
  · intro line
    have hf : ∀ {b : Bool}, b = false → ¬ (b = true) := by
      intro b hb hh
      rw [hb] at hh
      exact Bool.noConfusion hh
    refine ⟨?_, ?_, ?_, ?_⟩
    · intro h1
      rw [process_IR_input_package, if_pos h1]
    · intro h1 h2
      rw [process_IR_input_package, if_neg (hf h1), if_pos h2]
    · intro h1 h2 h3
      rw [process_IR_input_package, if_neg (hf h1), if_neg (hf h2), if_pos h3]
    · intro h1 h2 h3
      rw [process_IR_input_package, if_neg (hf h1), if_neg (hf h2), if_neg (hf h3)]
  · intro h
    rw [h] at hfound
    rw [h]
    exact hfound
  · intro h
    rw [h] at hfound
    rw [h]
    exact hfound

/-- Witness of the amended C17: on the line "0001 00 KEY_VOLUMEUP remote" the
source variant acts as `ra_vol_inc`. -/
theorem C17_ir_dispatch_witness :
    process_IR_input Variant.source
      ("0001".toList ++ Char.ofNat 32 :: ("00".toList ++ Char.ofNat 32 ::
        ("KEY_VOLUMEUP".toList ++ Char.ofNat 32 :: "remote".toList))) sampleOk
      = (ra_vol_inc Variant.source sampleOk).2 :=
  (C17_ir_dispatch sampleOk "0001".toList "00".toList "KEY_VOLUMEUP".toList "remote".toList
    (by decide) (by decide) (by decide)).1 rfl

/-- C18 fails on the code of the source variant. In the package variant every
mutating operation locks `vol_mutex` around its body, so from each of the three
entry points (`gpio_alert_callback`, `process_hw_input`, `process_ir_input`)
every operation body runs with `vol_mutex` held. In the source variant
`gpio_alert_callback` holds `button_mutex` around `process_button_event`, but
the operations themselves make no mutex call and neither `process_hw_input` nor
`process_IR_input` makes one: a mutating operation called with no mutex held
runs with no mutex held, as the command "SET_VOLUME=10" and the line
"0001 00 KEY_VOLUMEUP remote" show on the sample state. The definitions with
the mutex calls compute the same replies and states as the ones without. -/
theorem C18_lock_discipline :
    (∀ (alerts : List Alert) (s : World),
      guardedBy Mutex.vol_mutex (gpio_alert_callback Variant.package alerts (s, [])).2 false
        = true) ∧
    (∀ (string : List Char) (s : World),
      Option.all (fun r => guardedBy Mutex.vol_mutex r.2.2 false)
        (process_hw_input_locked Variant.package string (s, [])) = true) ∧
    (∀ (code : List Char) (s : World),
      guardedBy Mutex.vol_mutex (process_IR_input_locked Variant.package code (s, [])).2 false
        = true) ∧
    (∀ (alerts : List Alert) (s : World),
      guardedBy Mutex.button_mutex (gpio_alert_callback Variant.source alerts (s, [])).2 false
        = true) ∧
    (gpio_alert_callback Variant.source [Alert.mk 5 0 0xfe] (sampleOk, [])).2
      = [LockEvent.lock Mutex.button_mutex,
         LockEvent.body Op.vol_inc [Event.relay 65503, Event.bus 63 0, Event.delay 600,
           Event.bus 65503 0, Event.save 32],
         LockEvent.unlock Mutex.button_mutex] ∧
    (gpio_alert_callback Variant.package [Alert.mk 5 0 0xfe] (sampleOk, [])).2
      = [LockEvent.lock Mutex.vol_mutex,
         LockEvent.body Op.vol_inc [Event.relay 65503, Event.bus 63 0, Event.delay 600,
           Event.bus 65503 0, Event.save 32],
         LockEvent.unlock Mutex.vol_mutex] ∧
    (∀ (m : Mutex) (op : Op) (s : World),
      guardedBy m (call_locked Variant.source op (s, [])).2.2 false = false) ∧
    (process_hw_input_locked Variant.source "SET_VOLUME=10".toList (sampleOk, [])).map
        (fun r => (r.1, r.2.2))
      = some ("SUCCESS".toList,
          [LockEvent.body (Op.vol_set 10) [Event.relay 65525, Event.bus 63 0, Event.delay 600,
            Event.bus 65525 0, Event.save 10]]) ∧
    (∀ m : Mutex,
      (process_hw_input_locked Variant.source "SET_VOLUME=10".toList (sampleOk, [])).map
        (fun r => guardedBy m r.2.2 false) = some false) ∧
    (process_IR_input_locked Variant.source "0001 00 KEY_VOLUMEUP remote".toList
        (sampleOk, [])).2
      = [LockEvent.body Op.vol_inc [Event.relay 65503, Event.bus 63 0, Event.delay 600,
           Event.bus 65503 0, Event.save 32]] ∧
    (∀ m : Mutex,
      guardedBy m (process_IR_input_locked Variant.source "0001 00 KEY_VOLUMEUP remote".toList
        (sampleOk, [])).2 false = false) ∧
    (process_hw_input_locked Variant.package "SET_VOLUME=10".toList (sampleOk, [])).map
        (fun r => (r.1, r.2.2))
      = some ("SUCCESS".toList,
          [LockEvent.lock Mutex.vol_mutex,
           LockEvent.body (Op.vol_set 10) [Event.relay 65525, Event.bus 63 0, Event.delay 600,
             Event.bus 65525 0, Event.save 10],
           LockEvent.unlock Mutex.vol_mutex]) ∧
    (process_IR_input_locked Variant.package "0001 00 KEY_VOLUMEUP remote".toList
        (sampleOk, [])).2
      = [LockEvent.lock Mutex.vol_mutex,
         LockEvent.body Op.vol_inc [Event.relay 65503, Event.bus 63 0, Event.delay 600,
           Event.bus 65503 0, Event.save 32],
         LockEvent.unlock Mutex.vol_mutex] ∧
    (∀ (var : Variant) (string : List Char) (st : World × List LockEvent),
      (process_hw_input_locked var string st).map (fun r => (r.1, r.2.1))
        = process_hw_input var string st.1) ∧
    (∀ (var : Variant) (code : List Char) (st : World × List LockEvent),
      (process_IR_input_locked var code st).1 = process_IR_input var code st.1) ∧
    (∀ (var : Variant) (rd : Int) (st : World × List LockEvent),
      (process_button_event_locked var rd st).1 = process_button_event var rd st.1) := by
  refine ⟨?_, ?_, ?_, ?_, by decide, by decide, ?_, by decide, ?_, by decide, ?_,
    by decide, by decide, process_hw_input_locked_erase, process_IR_input_locked_erase,
    process_button_event_locked_erase⟩
  · intro alerts s
    exact (gpio_alert_callback_package alerts (s, []) (guarded_nil _)).1
  · intro string s
    exact process_hw_input_locked_package string (s, []) (guarded_nil _)
  · intro code s
    exact (process_IR_input_locked_package code (s, []) (guarded_nil _)).1
  · intro alerts s
    exact (gpio_alert_callback_source alerts (s, []) (guarded_nil _)).1
  · intro m op s
    rw [call_locked_trace]
    rfl
  · intro m
    cases m <;> decide
  · intro m
    cases m <;> decide

/-- C19: relay word encoding, in both variants, for every state whose volume
is in 0..63. Every operation that leaves the state unmuted (`ra_vol_set(v)` with
v in 0..63, `ra_vol_inc`, `ra_vol_dec`, `ra_set_mute(0)`, a toggle out of mute)
passes to `ra_write` the word `(~w) | 0x40` of the volume w it leaves, which is
65535 - w as unsigned short and has the low 8 bits 255 - w; `ra_set_mute(1)`
passes the word 0; a toggle into mute passes `(~vol) & 0xbf` = 191 - vol; and
191 - vol is not 0, so the two muting entry points write different words. -/
theorem C19_relay_words (var : Variant) (s : World) (hv : s.vol ≤ 63) :
    (∀ v : Int, 0 ≤ v → v ≤ 63 →
      relayWords (emitted s (ra_vol_set var v s).2)
        = [((4294967295 - v.toNat) ||| 0x40) % 65536] ∧
      ((4294967295 - v.toNat) ||| 0x40) % 65536 = 65535 - v.toNat ∧
      (((4294967295 - v.toNat) ||| 0x40) % 65536) % 256 = 255 - v.toNat) ∧
    (s.vol < 63 →
      relayWords (emitted s (ra_vol_inc var s).2)
        = [((4294967295 - (s.vol + 1)) ||| 0x40) % 65536] ∧
      ((4294967295 - (s.vol + 1)) ||| 0x40) % 65536 = 65535 - (s.vol + 1) ∧
      (((4294967295 - (s.vol + 1)) ||| 0x40) % 65536) % 256 = 255 - (s.vol + 1)) ∧
    (0 < s.vol →
      relayWords (emitted s (ra_vol_dec var s).2)
        = [((4294967295 - (s.vol - 1)) ||| 0x40) % 65536] ∧
      ((4294967295 - (s.vol - 1)) ||| 0x40) % 65536 = 65535 - (s.vol - 1) ∧
      (((4294967295 - (s.vol - 1)) ||| 0x40) % 65536) % 256 = 255 - (s.vol - 1)) ∧
    (relayWords (emitted s (ra_set_mute var 0 s).2) = [((4294967295 - s.vol) ||| 0x40) % 65536] ∧
      ((4294967295 - s.vol) ||| 0x40) % 65536 = 65535 - s.vol ∧
      (((4294967295 - s.vol) ||| 0x40) % 65536) % 256 = 255 - s.vol) ∧
    (s.mute = 1 →
      (ra_mute var s).mute = 0 ∧
      relayWords (emitted s (ra_mute var s)) = [((4294967295 - s.vol) ||| 0x40) % 65536]) ∧
    relayWords (emitted s (ra_set_mute var 1 s).2) = [0] ∧
    (s.mute = 0 →
      (ra_mute var s).mute = 1 ∧
      relayWords (emitted s (ra_mute var s)) = [((4294967295 - s.vol) &&& 0xbf) % 65536] ∧
      ((4294967295 - s.vol) &&& 0xbf) % 65536 = 191 - s.vol) ∧
    191 - s.vol ≠ 0 := by
  refine ⟨?_, ?_, ?_, ?_, ?_, ?_, ?_, by omega⟩
  · intro v h0 h1
    obtain ⟨-, -, -, ht, -⟩ := ra_vol_set_ok var v s h0 h1
    have he := emitted_append s (ra_vol_set var v s).2 _ (by rw [ht, List.append_assoc])
    have hw := unmutedWord_low8 v.toNat (by omega)
    refine ⟨?_, hw.1, hw.2⟩
    rw [he, relayWords_append, relayWords_relaySeq]
    rfl
  · intro h
    obtain ⟨-, -, -, ht, -⟩ := ra_vol_inc_ok var s h
    have he := emitted_append s (ra_vol_inc var s).2 _ (by rw [ht, List.append_assoc])
    have hw := unmutedWord_low8 (s.vol + 1) (by omega)
    refine ⟨?_, hw.1, hw.2⟩
    rw [he, relayWords_append, relayWords_relaySeq]
    rfl
  · intro h
    obtain ⟨-, -, -, ht, -⟩ := ra_vol_dec_ok var s h (by omega)
    have he := emitted_append s (ra_vol_dec var s).2 _ (by rw [ht, List.append_assoc])
    have hw := unmutedWord_low8 (s.vol - 1) (by omega)
    refine ⟨?_, hw.1, hw.2⟩
    rw [he, relayWords_append, relayWords_relaySeq]
    rfl
  · obtain ⟨-, -, -, -, ht⟩ := ra_set_mute_off var s
    have hw := unmutedWord_low8 s.vol hv
    refine ⟨?_, hw.1, hw.2⟩
    rw [emitted_append s _ _ ht, relayWords_relaySeq]
    rfl
  · intro h
    obtain ⟨hmu, -, -, ht⟩ := ra_mute_from1 var s h
    refine ⟨hmu, ?_⟩
    rw [emitted_append s _ _ ht, relayWords_relaySeq]
    rfl
  · obtain ⟨-, -, -, -, ht⟩ := ra_set_mute_on var s
    rw [emitted_append s _ _ ht, relayWords_relaySeq]
  · intro h
    obtain ⟨hmu, -, -, ht⟩ := ra_mute_from0 var s h
    refine ⟨hmu, ?_, mutedToggleWord_le63 s.vol hv⟩
    rw [emitted_append s _ _ ht, relayWords_relaySeq]

/-- Witness of C19 on the sample state (volume 31, muted) and on its unmuted
twin: the words are 65525 for `ra_vol_set(10)`, 65504 for the toggle out of
mute, 0 for `ra_set_mute(1)` and 160 for the toggle into mute. -/
theorem C19_relay_words_witness :
    relayWords (emitted sampleOk (ra_vol_set Variant.source 10 sampleOk).2) = [65525] ∧
    relayWords (emitted sampleOk (ra_mute Variant.source sampleOk)) = [65504] ∧
    relayWords (emitted sampleOk (ra_set_mute Variant.source 1 sampleOk).2) = [0] ∧
    relayWords (emitted { sampleOk with mute := 0 }
      (ra_mute Variant.source { sampleOk with mute := 0 })) = [160] := by
  have h1 := ((C19_relay_words Variant.source sampleOk (by decide)).1 10
    (by decide) (by decide)).1
  have h2 := ((C19_relay_words Variant.source sampleOk (by decide)).2.2.2.2.1 rfl).2
  have h3 := (C19_relay_words Variant.source sampleOk (by decide)).2.2.2.2.2.1
  have h4 := ((C19_relay_words Variant.source { sampleOk with mute := 0 }
    (by decide)).2.2.2.2.2.2.1 rfl).2.1
  exact ⟨h1, h2, h3, h4⟩

/-- C20: client table bound, for a table of 30 entries with 0 as the free
marker and a newly accepted descriptor greater than 0. The accept step stores
the descriptor in the first free slot, every other slot keeping its content;
with no free slot it leaves the table as it is. The table keeps its 30 entries,
so no more than 30 descriptors are put into `readfds`. A descriptor accepted
while the table is full (and not already in it) is not put into `readfds` and
no pass of the client loop, in either variant, writes a reply to it. Every
occupied slot keeps its descriptor. The descriptors put into `readfds` are
exactly the table entries greater than 0: after the accept step these include
every descriptor that was in the table, and the new one when a slot was free.
And a pass of the client loop over the new table returns (when every command
delivered has an action token), keeps the 30 entries, and writes to every
descriptor that was in the table, is ready and delivers a command, the reply
`process_hw_input` gives to that command. -/
theorem C20_client_table (new_socket : Int) (client_socket : List Int)
    (hlen : client_socket.length = max_clients) (hnew : 0 < new_socket) :
    (∀ pre post : List Int, client_socket = pre ++ 0 :: post → (∀ sd ∈ pre, sd ≠ 0) →
      accept_client new_socket client_socket = pre ++ new_socket :: post) ∧
    ((∀ sd ∈ client_socket, sd ≠ 0) →
      accept_client new_socket client_socket = client_socket) ∧
    (accept_client new_socket client_socket).length = 30 ∧
    (fd_set_clients (accept_client new_socket client_socket)).length ≤ 30 ∧
    ((∀ sd ∈ client_socket, sd ≠ 0) → new_socket ∉ client_socket →
      new_socket ∉ fd_set_clients (accept_client new_socket client_socket) ∧
      ∀ (var : Variant) (readfds : List Int) (input : Int → Option (List Char)) (s : World)
        (r : List Int × List (Int × List Char) × World),
        serve_clients var readfds input (accept_client new_socket client_socket) s = some r →
        ∀ w ∈ r.2.1, w.1 ≠ new_socket) ∧
    (∀ (i : Nat) (sd : Int), client_socket[i]? = some sd → sd ≠ 0 →
      (accept_client new_socket client_socket)[i]? = some sd) ∧
    (∀ sd ∈ fd_set_clients client_socket,
      sd ∈ fd_set_clients (accept_client new_socket client_socket)) ∧
    (∀ sd : Int, sd ∈ fd_set_clients (accept_client new_socket client_socket) ↔
      sd ∈ accept_client new_socket client_socket ∧ 0 < sd) ∧
    (∀ sd ∈ client_socket, 0 < sd →
      sd ∈ fd_set_clients (accept_client new_socket client_socket)) ∧
    ((0 : Int) ∈ client_socket →
      new_socket ∈ fd_set_clients (accept_client new_socket client_socket)) ∧
    (∀ (var : Variant) (readfds : List Int) (input : Int → Option (List Char)) (s : World),
      (∀ (sd : Int) (buffer : List Char), input sd = some buffer →
        ∃ action, actionOf buffer = some action) →
      ∃ r : List Int × List (Int × List Char) × World,
        serve_clients var readfds input (accept_client new_socket client_socket) s = some r ∧
        r.1.length = 30 ∧
        ∀ sd ∈ client_socket, 0 < sd → sd ∈ readfds →
          ∀ buffer, input sd = some buffer →
            ∃ (s1 : World) (out : List Char × World),
              process_hw_input var buffer s1 = some out ∧ (sd, out.1) ∈ r.2.1) := by
  have hacc : accept_client new_socket client_socket = store_client new_socket client_socket := by
    unfold accept_client
    rw [if_pos (by omega)]
  have hl : (accept_client new_socket client_socket).length = 30 := by
    rw [hacc, store_client_length, hlen]
    rfl
  have hkept : ∀ sd ∈ client_socket, 0 < sd → sd ∈ accept_client new_socket client_socket := by
    intro sd hsd hpos
    rw [hacc]
    exact store_client_mem new_socket client_socket sd hsd (by omega)
  refine ⟨?_, ?_, hl, ?_, ?_, ?_, ?_, ?_, ?_, ?_, ?_⟩
  · intro pre post hshape hpre
    rw [hacc, hshape]
    exact store_client_first_free new_socket pre post hpre
  · intro hfull
    rw [hacc]
    exact store_client_full new_socket client_socket hfull
  · unfold fd_set_clients
    exact le_trans (List.length_filter_le _ _) (le_of_eq hl)
  · intro hfull hnotin
    have hsame : accept_client new_socket client_socket = client_socket := by
      rw [hacc]
      exact store_client_full new_socket client_socket hfull
    rw [hsame]
    constructor
    · intro hmem
      unfold fd_set_clients at hmem
      exact hnotin (List.mem_filter.mp hmem).1
    · intro var readfds input s r hr w hw heq
      have := (serve_clients_writes var readfds input client_socket s r hr w hw).1
      rw [heq] at this
      exact hnotin this
  · intro i sd hi hsd
    rw [hacc]
    exact store_client_keeps new_socket client_socket i sd hi hsd
  · intro sd hsd
    obtain ⟨hmem, hpos⟩ := (fd_set_clients_mem client_socket sd).mp hsd
    exact (fd_set_clients_mem _ sd).mpr ⟨hkept sd hmem hpos, hpos⟩
  · intro sd
    exact fd_set_clients_mem _ sd
  · intro sd hsd hpos
    exact (fd_set_clients_mem _ sd).mpr ⟨hkept sd hsd hpos, hpos⟩
  · intro hfree
    refine (fd_set_clients_mem _ new_socket).mpr ⟨?_, hnew⟩
    rw [hacc]
    exact store_client_stores new_socket client_socket hfree
  · intro var readfds input s hin
    obtain ⟨r, hr⟩ := serve_clients_total var readfds input hin
      (accept_client new_socket client_socket) s
    obtain ⟨hrlen, hserve⟩ := serve_clients_serves var readfds input _ s r hr
    refine ⟨r, hr, by rw [hrlen, hl], ?_⟩
    intro sd hsd hpos hready buffer hbuf
    exact hserve sd (hkept sd hsd hpos) (Or.inr hpos) hready buffer hbuf

/-- Witness of C20. With slots 0 and 1 taken by descriptors 4 and 5, descriptor
9 goes to slot 2 and is polled; into the full table of descriptors 4..33
descriptor 40 is not stored; and when descriptor 5 is ready with "GET_VOLUME"
the pass over the new table answers it "31" (volume of the sample state),
writes nothing else and keeps the table. -/
theorem C20_client_table_witness :
    accept_client 9 ([4, 5] ++ 0 :: List.replicate 27 0)
      = [4, 5] ++ 9 :: List.replicate 27 0 ∧
    accept_client 40 ((List.range 30).map (fun i => (i : Int) + 4))
      = (List.range 30).map (fun i => (i : Int) + 4) ∧
    9 ∈ fd_set_clients (accept_client 9 ([4, 5] ++ 0 :: List.replicate 27 0)) ∧
    (∃ r : List Int × List (Int × List Char) × World,
      serve_clients Variant.source [5]
        (fun sd => if sd = 5 then some "GET_VOLUME".toList else none)
        (accept_client 9 ([4, 5] ++ 0 :: List.replicate 27 0)) sampleOk = some r ∧
      r.1.length = 30 ∧
      ∃ (s1 : World) (out : List Char × World),
        process_hw_input Variant.source "GET_VOLUME".toList s1 = some out ∧
        ((5 : Int), out.1) ∈ r.2.1) ∧
    (serve_clients Variant.source [5]
        (fun sd => if sd = 5 then some "GET_VOLUME".toList else none)
        (accept_client 9 ([4, 5] ++ 0 :: List.replicate 27 0)) sampleOk).map
        (fun r => (r.1, r.2.1))
      = some ([4, 5] ++ 9 :: List.replicate 27 0, [((5 : Int), "31".toList)]) := by
  have hthm := C20_client_table 9 ([4, 5] ++ 0 :: List.replicate 27 0) (by decide) (by decide)
  have hfull := (C20_client_table 40 ((List.range 30).map (fun i => (i : Int) + 4))
    (by decide) (by decide)).2.1 (by decide)
  have hin : ∀ (sd : Int) (buffer : List Char),
      (fun sd : Int => if sd = 5 then some "GET_VOLUME".toList else none) sd = some buffer →
      ∃ action, actionOf buffer = some action := by
    intro sd buffer h
    by_cases h5 : sd = 5
    · simp only [if_pos h5] at h
      have hb : buffer = "GET_VOLUME".toList := (Option.some.inj h).symm
      rw [hb]
      exact ⟨"GET_VOLUME".toList, by decide⟩
    · simp only [if_neg h5] at h
      exact Option.noConfusion h
  obtain ⟨r, hr, hrlen, hserve⟩ := hthm.2.2.2.2.2.2.2.2.2.2 Variant.source [5]
    (fun sd => if sd = 5 then some "GET_VOLUME".toList else none) sampleOk hin
  refine ⟨hthm.1 [4, 5] (List.replicate 27 0) rfl (by decide), hfull,
    hthm.2.2.2.2.2.2.2.2.2.1 (by decide), ⟨r, hr, hrlen, ?_⟩, by decide⟩
  exact hserve 5 (by decide) (by decide) (by decide) "GET_VOLUME".toList rfl

/-- C21: equivalence of the two variants' command handling. For every state
(in particular every state with volume in 0..63 and mute flag 0 or 1), every
command text that has an action token, and the priming bus write succeeding:
both variants return a reply, and the two results have the same reply, volume,
mute flag, relay words and saved values if and only if it is not the case that
the action is SET_VOLUME or SET_MUTE with no value token after it. Outside
that case the two results are equal altogether (state and trace included); in
that case the source variant answers "SUCCESS" and the package variant
"FAILURE". -/
theorem C21_variants_agree (s : World) (string action : List Char)
    (ha : actionOf string = some action) (hbus : 0 ≤ s.i2cRet s.i2cCalls) :
    ∃ rs rp : List Char × World,
      process_hw_input Variant.source string s = some rs ∧
      process_hw_input Variant.package string s = some rp ∧
      (sameOutcome s rs rp ↔
        ¬ ((action = "SET_VOLUME".toList ∨ action = "SET_MUTE".toList) ∧
          valOf string = none)) ∧
      (¬ ((action = "SET_VOLUME".toList ∨ action = "SET_MUTE".toList) ∧
          valOf string = none) → rs = rp) ∧
      ((action = "SET_VOLUME".toList ∨ action = "SET_MUTE".toList) ∧ valOf string = none →
        rs.1 = "SUCCESS".toList ∧ rp.1 = "FAILURE".toList ∧ rp.2 = s) := by
  obtain ⟨rs, hrs⟩ := process_hw_input_some Variant.source s string action ha
  obtain ⟨rp, hrp⟩ := process_hw_input_some Variant.package s string action ha
  refine ⟨rs, rp, hrs, hrp, ?_⟩
  by_cases hcase : (action = "SET_VOLUME".toList ∨ action = "SET_MUTE".toList) ∧
      valOf string = none
  · obtain ⟨⟨t, hsrc⟩, hpkg⟩ := process_hw_input_differ s string action ha hcase.1 hcase.2
    have e1 : rs = ("SUCCESS".toList, t) := by
      rw [hrs] at hsrc
      exact Option.some.inj hsrc
    have e2 : rp = ("FAILURE".toList, s) := by
      rw [hrp] at hpkg
      exact Option.some.inj hpkg
    have hne : "SUCCESS".toList ≠ "FAILURE".toList := by decide
    refine ⟨⟨?_, ?_⟩, ?_, ?_⟩
    · intro hsame
      have h1 : rs.1 = rp.1 := hsame.1
      rw [e1, e2] at h1
      exact absurd h1 hne
    · intro hnot
      exact absurd hcase hnot
    · intro hnot
      exact absurd hcase hnot
    · intro _
      rw [e1, e2]
      exact ⟨rfl, rfl, rfl⟩
  · have heq := process_hw_input_same s string action ha hbus hcase
    have e : rs = rp := by
      rw [hrs, hrp] at heq
      exact Option.some.inj heq
    refine ⟨⟨fun _ => hcase, ?_⟩, fun _ => e, ?_⟩
    · intro _
      rw [e]
      exact sameOutcome_refl s rp
    · intro hc
      exact absurd hc hcase

/-- Witness of C21 on the sample state: "SET_VOLUME=10" has an action token
and a value token, "SET_VOLUME" alone has an action token only. -/
theorem C21_variants_agree_witness :
    (∃ rs rp : List Char × World,
      process_hw_input Variant.source "SET_VOLUME=10".toList sampleOk = some rs ∧
      process_hw_input Variant.package "SET_VOLUME=10".toList sampleOk = some rp ∧
      (sameOutcome sampleOk rs rp ↔
        ¬ (("SET_VOLUME".toList = "SET_VOLUME".toList ∨
            "SET_VOLUME".toList = "SET_MUTE".toList) ∧
          valOf "SET_VOLUME=10".toList = none)) ∧
      (¬ (("SET_VOLUME".toList = "SET_VOLUME".toList ∨
            "SET_VOLUME".toList = "SET_MUTE".toList) ∧
          valOf "SET_VOLUME=10".toList = none) → rs = rp) ∧
      (("SET_VOLUME".toList = "SET_VOLUME".toList ∨
            "SET_VOLUME".toList = "SET_MUTE".toList) ∧
          valOf "SET_VOLUME=10".toList = none →
        rs.1 = "SUCCESS".toList ∧ rp.1 = "FAILURE".toList ∧ rp.2 = sampleOk)) ∧
    valOf "SET_VOLUME=10".toList = some "10".toList ∧
    valOf "SET_VOLUME".toList = none :=
  ⟨C21_variants_agree sampleOk "SET_VOLUME=10".toList "SET_VOLUME".toList
      (by decide) (by decide),
   by decide, by decide⟩

end RAttenu
